import Mathlib

/-!
Verification development for the authenticated request pipeline of the
surf-forecast mobile client.

The code under verification is:
  * src/mobile/src/api/client.ts — the axios client with its request and
    response interceptors, the module-level mutable pair
    (isRefreshing, failedQueue), and processQueue;
  * src/mobile/src/navigation/HomeStack.tsx (embedded documents) — the
    tokenStorage module (access token in memory, refresh token in the
    secure store) and the AuthProvider (login/register/logout and the
    isAuthenticated/isLoading React state).

The embedding is a small-step interleaving semantics of the JavaScript
event loop restricted to this subsystem: a task is one in-flight
invocation of the response-error interceptor for one request; it runs
synchronously between the `await` points of client.ts and suspends at
each of them (getRefreshToken, the refresh POST, setRefreshToken,
clearRefreshToken).  A schedule is a list of events; each event resumes
one suspended task with the result of its pending asynchronous
operation and then executes the following synchronous block of the
source atomically, exactly as the single-threaded event loop does.
Reads of the secure store are linearised at their resumption point.
The ghost field submittedLog records, in order, every refresh token
submitted to POST /auth/refresh (the axios.post on line 73 of
client.ts), so that single-flight and rotation properties can be
stated.
-/

namespace SurfAuth

/-- Opaque bearer strings (access and refresh tokens). -/
abbrev Token := String

/-- Renewal-path errors (network failure, HTTP rejection of the refresh
call, secure-store write failure) are opaque values compared for
identity, mirroring the JavaScript error objects. -/
abbrev Err := String

/-- An axios error as seen by the response interceptor: `status` is
`error.response?.status` (`none` models a transport-level failure with
no response), `tag` identifies the error object so that pass-through
claims can say the very same error is returned. -/
structure AxErr where
  status : Option Nat
  tag : String
deriving DecidableEq, Repr

/-- The body of a refresh response, `resp.data` on line 77 of client.ts:
`access` is `resp.data.access_token` and `renewal` is
`resp.data.refresh_token`.  `none` models a missing field (undefined);
`some ""` models an empty string.  Both are falsy in JavaScript. -/
structure RespData where
  access : Option Token
  renewal : Option Token
deriving DecidableEq, Repr

/-- Outcome of the refresh POST on line 73 of client.ts. -/
inductive RefreshResult
  | ok (d : RespData)
  | err (e : Err)
deriving DecidableEq, Repr

/-- What an execute() call is rejected with: the original axios error
(lines 48, 53 of client.ts) or a renewal-path error (lines 17, 89). -/
inductive RErr
  | original (e : AxErr)
  | renewal (e : Err)
deriving DecidableEq, Repr

/-- Program counter of one interceptor invocation.  The awaitX phases
are the suspension points of client.ts: line 51 (getRefreshToken),
line 73 (the refresh POST), line 79 (setRefreshToken), line 88
(clearRefreshToken).  `waiting` is a caller enqueued in failedQueue
(lines 58-66).  `reissued` means the original request has been re-sent
through apiClient (line 62 or line 83) and its response is pending.
`fulfilled` and `rejected` are terminal. -/
inductive Phase
  | awaitGetRefresh
  | awaitPost (tok : Token)
  | awaitSetRefresh (d : RespData)
  | awaitClearRefresh (e : Err)
  | waiting
  | reissued
  | fulfilled
  | rejected (e : RErr)
deriving DecidableEq, Repr

/-- One request's interceptor state: `err` is the axios error currently
being handled for it, `retry` is the mutable `_retry` flag on its
config object (line 44), `auth` is its Authorization header bearer
value. -/
structure ReqTask where
  id : Nat
  err : AxErr
  retry : Bool
  auth : Option Token
  phase : Phase
deriving DecidableEq, Repr

/-- The tokenStorage state: `accessToken` is the module-level in-memory
variable, `refreshToken` is the value under the fixed key in the secure
store. -/
structure Store where
  accessToken : Option Token
  refreshToken : Option Token
deriving DecidableEq, Repr

/-- tokenStorage.getAccessToken. -/
def getAccessToken (st : Store) : Option Token :=
  st.accessToken

/-- tokenStorage.setAccessToken.  The argument is an Option because the
destructuring on line 77 of client.ts can produce undefined. -/
def setAccessToken (st : Store) (t : Option Token) : Store :=
  { st with accessToken := t }

/-- tokenStorage.clearAccessToken. -/
def clearAccessToken (st : Store) : Store :=
  { st with accessToken := none }

/-- tokenStorage.getRefreshToken: returns the stored value, or null if
the SecureStore read throws (the catch on lines 135-137 turns a storage
failure into null, i.e. absence). -/
def getRefreshToken (st : Store) (fault : Bool) : Option Token :=
  if fault then none else st.refreshToken

/-- tokenStorage.setRefreshToken (the successful case; a throwing write
is modelled by the scheduler delivering a failure to the suspended
awaitSetRefresh task). -/
def setRefreshToken (st : Store) (t : Option Token) : Store :=
  { st with refreshToken := t }

/-- tokenStorage.clearRefreshToken: deletes the persisted value; a
deletion error (missing key) is swallowed, so the post-state is absent
either way. -/
def clearRefreshToken (st : Store) : Store :=
  { st with refreshToken := none }

/-- tokenStorage.clearAll: clears memory and best-effort deletes the
persisted value. -/
def clearAll (st : Store) : Store :=
  clearRefreshToken { st with accessToken := none }

/-- The whole-process state: tokenStorage, the AuthProvider React flag
isAuthenticated, the module-level mutex pair of client.ts
(isRefreshing, failedQueue), every live interceptor task, and the ghost
log of tokens submitted to the refresh endpoint. -/
structure Sys where
  store : Store
  isAuthenticated : Bool
  isRefreshing : Bool
  failedQueue : List Nat
  tasks : List ReqTask
  submittedLog : List Token
deriving DecidableEq, Repr

/-- How processQueue (lines 14-23 of client.ts) completes one queued
handle: with an error it rejects; otherwise, if the token is truthy it
sets the Authorization header and re-issues the request; a falsy token
with no error matches neither branch and leaves the handle untouched. -/
def completeWaiter (e : Option Err) (tok : Option Token) (t : ReqTask) : ReqTask :=
  match e with
  | some er => { t with phase := .rejected (.renewal er) }
  | none =>
    match tok with
    | some tk => if tk = "" then t else { t with auth := some tk, phase := .reissued }
    | none => t

/-- processQueue (lines 14-23 of client.ts): drains failedQueue in one
pass, completing each entry via completeWaiter, then resets the queue
to the empty list. -/
def processQueue (s : Sys) (e : Option Err) (tok : Option Token) : Sys :=
  { s with
    tasks := s.tasks.map fun t => if t.id ∈ s.failedQueue then completeWaiter e tok t else t,
    failedQueue := [] }

/-- Look up a task by request id. -/
def findTask (s : Sys) (id : Nat) : Option ReqTask :=
  s.tasks.find? fun t => t.id == id

/-- Update the task with the given id in place. -/
def updTask (s : Sys) (id : Nat) (f : ReqTask → ReqTask) : Sys :=
  { s with tasks := s.tasks.map fun t => if t.id = id then f t else t }

/-- Scheduler events.  Each delivers the completion of one pending
asynchronous operation to one task (or starts a new interceptor
invocation) and runs the following synchronous block of client.ts. -/
inductive Ev
  | arrive (id : Nat) (e : AxErr)
  | readDone (id : Nat) (fault : Bool)
  | postDone (id : Nat) (r : RefreshResult)
  | setDone (id : Nat) (res : Option Err)
  | clearDone (id : Nat)
  | retryResponse (id : Nat) (r : Option AxErr)
deriving DecidableEq, Repr

/-- The small-step transition function.  Every branch transcribes a
synchronous block of client.ts:

* arrive: a response error is delivered for a fresh request and the
  interceptor body starts (lines 44-49).  A non-401 status, or an
  already-set `_retry` flag, rejects with the same error; otherwise the
  task suspends on getRefreshToken (line 51).  Fresh configs have
  `_retry` unset, so new tasks carry `retry := false`.
* readDone: the getRefreshToken read resolves (with null if the secure
  store threw) and lines 52-73 run: falsy token rejects with the
  original error (line 53); if isRefreshing, the caller pushes a handle
  onto failedQueue and suspends (lines 56-67); otherwise it sets
  `_retry := true`, takes the mutex, records the submitted token and
  suspends on the POST (lines 69-73).
* postDone ok: lines 77-79 run: the parsed access token is stored in
  memory, then the task suspends on setRefreshToken.
* postDone err / setDone err: the catch block (lines 84-88) runs:
  processQueue rejects every queued handle with the same error, the
  in-memory access token is cleared, and the task suspends on
  clearRefreshToken.
* setDone ok: the persisted refresh token now holds the rotated value,
  and lines 81-83 plus the finally (line 91) run: the leader's header
  is set, processQueue resolves every queued handle with the new access
  token, the leader re-issues its request, and isRefreshing drops.
* clearDone: the deletion completes (line 88), the task rejects with
  the renewal error (line 89) and the finally releases the mutex.
* retryResponse: the re-issued request settles; on an error the
  interceptor runs again for the same config object, so a set `_retry`
  flag or a non-401 status rejects as-is, and otherwise the task
  re-enters the renewal path at getRefreshToken. -/
def step (s : Sys) : Ev → Sys
  | .arrive id e =>
    if s.tasks.any (fun t => t.id == id) then s
    else if e.status = some 401 then
      { s with tasks := s.tasks ++ [{ id := id, err := e, retry := false, auth := none, phase := .awaitGetRefresh }] }
    else
      { s with tasks := s.tasks ++ [{ id := id, err := e, retry := false, auth := none, phase := .rejected (.original e) }] }
  | .readDone id fault =>
    match findTask s id with
    | some t =>
      match t.phase with
      | .awaitGetRefresh =>
        match getRefreshToken s.store fault with
        | none => updTask s id fun u => { u with phase := .rejected (.original u.err) }
        | some tk =>
          if tk = "" then
            updTask s id fun u => { u with phase := .rejected (.original u.err) }
          else if s.isRefreshing then
            { (updTask s id fun u => { u with phase := .waiting }) with
                failedQueue := s.failedQueue ++ [id] }
          else
            { (updTask s id fun u => { u with retry := true, phase := .awaitPost tk }) with
                isRefreshing := true, submittedLog := s.submittedLog ++ [tk] }
      | _ => s
    | none => s
  | .postDone id r =>
    match findTask s id with
    | some t =>
      match t.phase with
      | .awaitPost _ =>
        match r with
        | .ok d =>
          let s1 := { s with store := setAccessToken s.store d.access }
          updTask s1 id fun u => { u with phase := .awaitSetRefresh d }
        | .err e =>
          let s1 := processQueue s (some e) none
          let s2 := { s1 with store := clearAccessToken s1.store }
          updTask s2 id fun u => { u with phase := .awaitClearRefresh e }
      | _ => s
    | none => s
  | .setDone id res =>
    match findTask s id with
    | some t =>
      match t.phase with
      | .awaitSetRefresh d =>
        match res with
        | none =>
          let s1 := { s with store := setRefreshToken s.store d.renewal }
          let s2 := updTask s1 id fun u => { u with auth := d.access }
          let s3 := processQueue s2 none d.access
          let s4 := updTask s3 id fun u => { u with phase := .reissued }
          { s4 with isRefreshing := false }
        | some e =>
          let s1 := processQueue s (some e) none
          let s2 := { s1 with store := clearAccessToken s1.store }
          updTask s2 id fun u => { u with phase := .awaitClearRefresh e }
      | _ => s
    | none => s
  | .clearDone id =>
    match findTask s id with
    | some t =>
      match t.phase with
      | .awaitClearRefresh e =>
        let s1 := { s with store := clearRefreshToken s.store }
        let s2 := updTask s1 id fun u => { u with phase := .rejected (.renewal e) }
        { s2 with isRefreshing := false }
      | _ => s
    | none => s
  | .retryResponse id r =>
    match findTask s id with
    | some t =>
      match t.phase with
      | .reissued =>
        match r with
        | none => updTask s id fun u => { u with phase := .fulfilled }
        | some e2 =>
          if e2.status = some 401 ∧ t.retry = false then
            updTask s id fun u => { u with err := e2, phase := .awaitGetRefresh }
          else
            updTask s id fun u => { u with err := e2, phase := .rejected (.original e2) }
      | _ => s
    | none => s

/-- Run a schedule. -/
def run (s : Sys) : List Ev → Sys
  | [] => s
  | e :: evs => run (step s e) evs

/-- The success path of the response interceptor (line 42 of client.ts)
is the identity on responses. -/
def onResponseFulfilled {α : Type} (r : α) : α := r

/-- A process state with no interceptor invocation in flight. -/
def initSys (acc rt : Option Token) (auth : Bool) : Sys :=
  { store := { accessToken := acc, refreshToken := rt },
    isAuthenticated := auth, isRefreshing := false,
    failedQueue := [], tasks := [], submittedLog := [] }

/-- A token pair as returned by the login/register/refresh endpoints. -/
structure TokenResponse where
  access_token : Token
  refresh_token : Token
deriving DecidableEq, Repr

/-- The commit performed by AuthProvider.login (and register) on a
successful endpoint response (HomeStack.tsx AuthProvider, login
callback): store both tokens and set isAuthenticated. -/
def loginSuccess (s : Sys) (tk : TokenResponse) : Sys :=
  { s with
    store := setRefreshToken (setAccessToken s.store (some tk.access_token)) (some tk.refresh_token),
    isAuthenticated := true }

/-- The commit performed by AuthProvider.logout: tokenStorage.clearAll
then isAuthenticated false. -/
def logoutCommit (s : Sys) : Sys :=
  { s with store := clearAll s.store, isAuthenticated := false }

/-- A phase holds the single-flight mutex: from taking it on line 70 of
client.ts until the finally on line 91 releases it, the task is
suspended on the POST, on setRefreshToken, or on clearRefreshToken. -/
def leaderActive : Phase → Bool
  | .awaitPost _ => true
  | .awaitSetRefresh _ => true
  | .awaitClearRefresh _ => true
  | _ => false

/-- A renewal network request is in flight exactly while some task is
suspended at the axios.post of line 73. -/
def inFlightPost : Phase → Bool
  | .awaitPost _ => true
  | _ => false

/-- The structural invariant of the interceptor state: task ids are
distinct; any task holding the mutex implies isRefreshing; at most one
task holds the mutex; every queued id belongs to a task suspended as a
waiter; and every queued id belongs to some task. -/
def Inv (s : Sys) : Prop :=
  (s.tasks.map ReqTask.id).Nodup ∧
  (∀ t ∈ s.tasks, leaderActive t.phase = true → s.isRefreshing = true) ∧
  (∀ t ∈ s.tasks, ∀ u ∈ s.tasks, leaderActive t.phase = true → leaderActive u.phase = true → t = u) ∧
  (∀ t ∈ s.tasks, t.id ∈ s.failedQueue → t.phase = .waiting) ∧
  (∀ i ∈ s.failedQueue, ∃ t ∈ s.tasks, t.id = i)

/-- At most one renewal network request is in flight. -/
def AtMostOnePost (s : Sys) : Prop :=
  ∀ t ∈ s.tasks, ∀ u ∈ s.tasks,
    inFlightPost t.phase = true → inFlightPost u.phase = true → t = u

instance (s : Sys) : Decidable (Inv s) := by
  unfold Inv
  infer_instance

instance (s : Sys) : Decidable (AtMostOnePost s) := by
  unfold AtMostOnePost
  infer_instance

/-- An event respects the rotation contract of POST /auth/refresh
(section 6 of the server contract): a successful refresh response
carries a renewal credential that has never been submitted before. -/
def freshEv (s : Sys) : Ev → Bool
  | .postDone _ (.ok d) =>
    match d.renewal with
    | none => true
    | some tk => !(s.submittedLog.contains tk)
  | _ => true

/-- A schedule along which every refresh success rotates (its renewal
token is globally fresh). -/
def goodFrom (s : Sys) : List Ev → Bool
  | [] => true
  | e :: evs => freshEv s e && goodFrom (step s e) evs

/-- Rotation bookkeeping: the submitted log has no duplicates; while no
renewal is in flight the stored renewal token has never been submitted;
and a pending rotated token awaiting persistence has never been
submitted. -/
def RotOK (s : Sys) : Prop :=
  s.submittedLog.Nodup ∧
  (s.isRefreshing = false → ∀ tk, s.store.refreshToken = some tk → tk ∉ s.submittedLog) ∧
  (∀ t ∈ s.tasks, ∀ d, t.phase = .awaitSetRefresh d →
      ∀ tk, d.renewal = some tk → tk ∉ s.submittedLog)

/-- The token r has been consumed: it was submitted to the refresh
endpoint, the store no longer holds it, and no pending rotated pair
would re-introduce it. -/
def Consumed (r : Token) (s : Sys) : Prop :=
  r ∈ s.submittedLog ∧ s.store.refreshToken ≠ some r ∧
  (∀ t ∈ s.tasks, ∀ d, t.phase = .awaitSetRefresh d → d.renewal ≠ some r)

/-! Basic facts about the state operations. -/

theorem completeWaiter_id (e : Option Err) (tok : Option Token) (t : ReqTask) :
    (completeWaiter e tok t).id = t.id := by
  unfold completeWaiter
  cases e with
  | some er => rfl
  | none =>
    cases tok with
    | none => rfl
    | some tk => by_cases h : tk = "" <;> simp [h]

theorem map_ids_eq {l : List ReqTask} (g : ReqTask → ReqTask)
    (h : ∀ u, (g u).id = u.id) : (l.map g).map ReqTask.id = l.map ReqTask.id := by
  induction l with
  | nil => rfl
  | cons a l ih => simp only [List.map_cons, h, ih]

theorem updTask_ids (s : Sys) (id : Nat) (f : ReqTask → ReqTask)
    (hf : ∀ u, (f u).id = u.id) :
    (updTask s id f).tasks.map ReqTask.id = s.tasks.map ReqTask.id := by
  apply map_ids_eq
  intro u
  by_cases h : u.id = id <;> simp [h, hf]

theorem processQueue_ids (s : Sys) (e : Option Err) (tok : Option Token) :
    (processQueue s e tok).tasks.map ReqTask.id = s.tasks.map ReqTask.id := by
  apply map_ids_eq
  intro u
  by_cases h : u.id ∈ s.failedQueue <;> simp [h, completeWaiter_id]

theorem findTask_mem {s : Sys} {id : Nat} {t : ReqTask}
    (h : findTask s id = some t) : t ∈ s.tasks ∧ t.id = id := by
  refine ⟨List.mem_of_find?_eq_some h, ?_⟩
  have := List.find?_some h
  simpa using this

theorem id_inj {s : Sys} (hnd : (s.tasks.map ReqTask.id).Nodup)
    {t u : ReqTask} (ht : t ∈ s.tasks) (hu : u ∈ s.tasks) (h : t.id = u.id) : t = u :=
  List.inj_on_of_nodup_map hnd ht hu h

theorem eq_of_findTask {s : Sys} {id : Nat} {t₀ v : ReqTask}
    (hnd : (s.tasks.map ReqTask.id).Nodup)
    (h : findTask s id = some t₀) (hv : v ∈ s.tasks) (hid : v.id = id) : v = t₀ := by
  obtain ⟨hm, hi⟩ := findTask_mem h
  exact id_inj hnd hv hm (by rw [hid, hi])

theorem mem_map_cond {l : List ReqTask} {g : ReqTask → ReqTask} {u : ReqTask}
    (h : u ∈ l.map g) : ∃ v ∈ l, u = g v := by
  rcases List.mem_map.mp h with ⟨v, hv, he⟩
  exact ⟨v, hv, he.symm⟩

theorem mem_updTask {s : Sys} {id : Nat} {f : ReqTask → ReqTask} {u : ReqTask}
    (h : u ∈ (updTask s id f).tasks) :
    ∃ v ∈ s.tasks, u = if v.id = id then f v else v :=
  mem_map_cond h

theorem mem_processQueue {s : Sys} {e : Option Err} {tok : Option Token} {u : ReqTask}
    (h : u ∈ (processQueue s e tok).tasks) :
    ∃ v ∈ s.tasks, u = if v.id ∈ s.failedQueue then completeWaiter e tok v else v :=
  mem_map_cond h

@[simp] theorem updTask_store (s : Sys) (id : Nat) (f : ReqTask → ReqTask) :
    (updTask s id f).store = s.store := rfl

@[simp] theorem updTask_isRefreshing (s : Sys) (id : Nat) (f : ReqTask → ReqTask) :
    (updTask s id f).isRefreshing = s.isRefreshing := rfl

@[simp] theorem updTask_failedQueue (s : Sys) (id : Nat) (f : ReqTask → ReqTask) :
    (updTask s id f).failedQueue = s.failedQueue := rfl

@[simp] theorem updTask_submittedLog (s : Sys) (id : Nat) (f : ReqTask → ReqTask) :
    (updTask s id f).submittedLog = s.submittedLog := rfl

@[simp] theorem updTask_isAuthenticated (s : Sys) (id : Nat) (f : ReqTask → ReqTask) :
    (updTask s id f).isAuthenticated = s.isAuthenticated := rfl

@[simp] theorem processQueue_store (s : Sys) (e : Option Err) (tok : Option Token) :
    (processQueue s e tok).store = s.store := rfl

@[simp] theorem processQueue_isRefreshing (s : Sys) (e : Option Err) (tok : Option Token) :
    (processQueue s e tok).isRefreshing = s.isRefreshing := rfl

@[simp] theorem processQueue_failedQueue (s : Sys) (e : Option Err) (tok : Option Token) :
    (processQueue s e tok).failedQueue = [] := rfl

@[simp] theorem processQueue_submittedLog (s : Sys) (e : Option Err) (tok : Option Token) :
    (processQueue s e tok).submittedLog = s.submittedLog := rfl

@[simp] theorem processQueue_isAuthenticated (s : Sys) (e : Option Err) (tok : Option Token) :
    (processQueue s e tok).isAuthenticated = s.isAuthenticated := rfl

theorem updTask_mem_self {s : Sys} {id : Nat} {f : ReqTask → ReqTask} {t₀ : ReqTask}
    (h : findTask s id = some t₀) : f t₀ ∈ (updTask s id f).tasks := by
  obtain ⟨hm, hi⟩ := findTask_mem h
  have hx : (if t₀.id = id then f t₀ else t₀) ∈ (updTask s id f).tasks :=
    List.mem_map_of_mem _ hm
  simpa [hi] using hx

theorem exists_id_map {l : List ReqTask} {g : ReqTask → ReqTask}
    (hg : ∀ u, (g u).id = u.id) {i : Nat}
    (h : ∃ t ∈ l, t.id = i) : ∃ t ∈ l.map g, t.id = i := by
  rcases h with ⟨t, ht, hi⟩
  exact ⟨g t, List.mem_map_of_mem _ ht, by rw [hg, hi]⟩

/-! Preservation of the structural invariant, one lemma per shape of
synchronous block in the step function. -/

theorem inv_updTask_same {s : Sys} (h : Inv s) {id : Nat} {t₀ : ReqTask}
    (hft : findTask s id = some t₀)
    {f : ReqTask → ReqTask} (hfid : ∀ u, (f u).id = u.id)
    (hnw : t₀.phase ≠ .waiting)
    (hld : leaderActive (f t₀).phase = leaderActive t₀.phase) :
    Inv (updTask s id f) := by
  obtain ⟨hnd, href, huniq, hqw, hqb⟩ := h
  obtain ⟨hmem, hid⟩ := findTask_mem hft
  refine ⟨?_, ?_, ?_, ?_, ?_⟩
  · rw [updTask_ids s id f hfid]; exact hnd
  · intro t ht hl
    rcases mem_updTask ht with ⟨v, hv, rfl⟩
    by_cases hvid : v.id = id
    · have hv0 : v = t₀ := eq_of_findTask hnd hft hv hvid
      subst hv0
      rw [if_pos hvid] at hl
      rw [hld] at hl
      exact href v hv hl
    · rw [if_neg hvid] at hl
      exact href v hv hl
  · intro t ht u hu hlt hlu
    rcases mem_updTask ht with ⟨v1, hv1, rfl⟩
    rcases mem_updTask hu with ⟨v2, hv2, rfl⟩
    by_cases h1 : v1.id = id <;> by_cases h2 : v2.id = id
    · have e1 : v1 = t₀ := eq_of_findTask hnd hft hv1 h1
      have e2 : v2 = t₀ := eq_of_findTask hnd hft hv2 h2
      rw [e1, e2]
    · rw [if_pos h1] at hlt ⊢
      rw [if_neg h2] at hlu ⊢
      have e1 : v1 = t₀ := eq_of_findTask hnd hft hv1 h1
      subst e1
      rw [hld] at hlt
      have := huniq v1 hv1 v2 hv2 hlt hlu
      subst this
      exact absurd h1 h2
    · rw [if_neg h1] at hlt ⊢
      rw [if_pos h2] at hlu ⊢
      have e2 : v2 = t₀ := eq_of_findTask hnd hft hv2 h2
      subst e2
      rw [hld] at hlu
      have := huniq v1 hv1 v2 hv2 hlt hlu
      subst this
      exact absurd h2 h1
    · rw [if_neg h1] at hlt ⊢
      rw [if_neg h2] at hlu ⊢
      exact huniq v1 hv1 v2 hv2 hlt hlu
  · intro t ht hq
    rcases mem_updTask ht with ⟨v, hv, rfl⟩
    by_cases hvid : v.id = id
    · have hv0 : v = t₀ := eq_of_findTask hnd hft hv hvid
      subst hv0
      rw [if_pos hvid] at hq
      rw [hfid] at hq
      rw [hvid] at hq
      have := hqw v hv (by rw [hvid]; exact hq)
      exact absurd this hnw
    · rw [if_neg hvid] at hq ⊢
      exact hqw v hv hq
  · intro i hi
    exact exists_id_map (fun u => by by_cases h : u.id = id <;> simp [h, hfid]) (hqb i hi)

theorem completeWaiter_some (e : Err) (tok : Option Token) (t : ReqTask) :
    completeWaiter (some e) tok t = { t with phase := .rejected (.renewal e) } := rfl

theorem completeWaiter_none (tok : Option Token) (t : ReqTask) :
    completeWaiter none tok t = t ∨
    ∃ tk, tok = some tk ∧ tk ≠ "" ∧
      completeWaiter none tok t = { t with auth := some tk, phase := .reissued } := by
  unfold completeWaiter
  cases tok with
  | none => exact Or.inl rfl
  | some tk =>
    by_cases h : tk = ""
    · exact Or.inl (by simp [h])
    · exact Or.inr ⟨tk, rfl, h, by simp [h]⟩

theorem inv_enqueue {s : Sys} (h : Inv s) {id : Nat} {t₀ : ReqTask}
    (hft : findTask s id = some t₀) (hp : t₀.phase = .awaitGetRefresh) :
    Inv { (updTask s id fun u => { u with phase := .waiting }) with
          failedQueue := s.failedQueue ++ [id] } := by
  obtain ⟨hnd, href, huniq, hqw, hqb⟩ := h
  obtain ⟨hmem, hid⟩ := findTask_mem hft
  refine ⟨?_, ?_, ?_, ?_, ?_⟩
  · rw [updTask_ids s id (fun u => { u with phase := .waiting }) (fun u => rfl)]
    exact hnd
  · intro t ht hl
    rcases mem_updTask ht with ⟨v, hv, rfl⟩
    by_cases hvid : v.id = id
    · rw [if_pos hvid] at hl
      simp [leaderActive] at hl
    · rw [if_neg hvid] at hl
      exact href v hv hl
  · intro t ht u hu hlt hlu
    rcases mem_updTask ht with ⟨v1, hv1, rfl⟩
    rcases mem_updTask hu with ⟨v2, hv2, rfl⟩
    by_cases h1 : v1.id = id
    · rw [if_pos h1] at hlt
      simp [leaderActive] at hlt
    · by_cases h2 : v2.id = id
      · rw [if_pos h2] at hlu
        simp [leaderActive] at hlu
      · rw [if_neg h1] at hlt ⊢
        rw [if_neg h2] at hlu ⊢
        exact huniq v1 hv1 v2 hv2 hlt hlu
  · intro t ht hq
    rcases mem_updTask ht with ⟨v, hv, rfl⟩
    by_cases hvid : v.id = id
    · rw [if_pos hvid]
    · rw [if_neg hvid] at hq ⊢
      rcases List.mem_append.mp hq with hq1 | hq1
      · exact hqw v hv hq1
      · rw [List.mem_singleton] at hq1
        exact absurd hq1 hvid
  · intro i hi
    rcases List.mem_append.mp hi with hi1 | hi1
    · exact exists_id_map (fun u => by by_cases h : u.id = id <;> simp [h]) (hqb i hi1)
    · rw [List.mem_singleton] at hi1
      subst hi1
      refine ⟨{ t₀ with phase := .waiting }, updTask_mem_self hft, hid⟩

theorem inv_lead {s : Sys} (h : Inv s) {id : Nat} {t₀ : ReqTask} {tk : Token}
    (hft : findTask s id = some t₀) (hp : t₀.phase = .awaitGetRefresh)
    (hir : s.isRefreshing = false) :
    Inv { (updTask s id fun u => { u with retry := true, phase := .awaitPost tk }) with
          isRefreshing := true, submittedLog := s.submittedLog ++ [tk] } := by
  obtain ⟨hnd, href, huniq, hqw, hqb⟩ := h
  obtain ⟨hmem, hid⟩ := findTask_mem hft
  refine ⟨?_, ?_, ?_, ?_, ?_⟩
  · rw [updTask_ids s id (fun u => { u with retry := true, phase := .awaitPost tk }) (fun u => rfl)]
    exact hnd
  · intro t ht hl
    rfl
  · intro t ht u hu hlt hlu
    rcases mem_updTask ht with ⟨v1, hv1, rfl⟩
    rcases mem_updTask hu with ⟨v2, hv2, rfl⟩
    by_cases h1 : v1.id = id
    · by_cases h2 : v2.id = id
      · have e1 : v1 = t₀ := eq_of_findTask hnd hft hv1 h1
        have e2 : v2 = t₀ := eq_of_findTask hnd hft hv2 h2
        rw [e1, e2]
      · rw [if_neg h2] at hlu
        have := href v2 hv2 hlu
        rw [hir] at this
        exact absurd this (by decide)
    · rw [if_neg h1] at hlt
      have := href v1 hv1 hlt
      rw [hir] at this
      exact absurd this (by decide)
  · intro t ht hq
    rcases mem_updTask ht with ⟨v, hv, rfl⟩
    by_cases hvid : v.id = id
    · have hv0 : v = t₀ := eq_of_findTask hnd hft hv hvid
      subst hv0
      rw [if_pos hvid] at hq
      have : v.id ∈ s.failedQueue := by simpa [hvid] using hq
      have hw := hqw v hv this
      rw [hp] at hw
      exact absurd hw (by simp)
    · rw [if_neg hvid] at hq ⊢
      exact hqw v hv hq
  · intro i hi
    exact exists_id_map (fun u => by by_cases h : u.id = id <;> simp [h]) (hqb i hi)

theorem inv_settle_err {s : Sys} (h : Inv s) {id : Nat} {t₀ : ReqTask} {e : Err}
    (hft : findTask s id = some t₀) (hl : leaderActive t₀.phase = true) (st : Store) :
    Inv (updTask { (processQueue s (some e) none) with store := st } id
          fun u => { u with phase := .awaitClearRefresh e }) := by
  obtain ⟨hnd, href, huniq, hqw, hqb⟩ := h
  obtain ⟨hmem, hid⟩ := findTask_mem hft
  have hidnq : id ∉ s.failedQueue := by
    intro hin
    have hwv := hqw t₀ hmem (by rw [hid]; exact hin)
    rw [hwv] at hl
    simp [leaderActive] at hl
  have shape : ∀ u ∈ (updTask { (processQueue s (some e) none) with store := st } id
          fun x => { x with phase := .awaitClearRefresh e }).tasks,
      leaderActive u.phase = true → u = { t₀ with phase := .awaitClearRefresh e } := by
    intro u hu hlu
    rcases mem_updTask hu with ⟨w, hw, rfl⟩
    rcases mem_processQueue hw with ⟨v, hv, rfl⟩
    by_cases hq : v.id ∈ s.failedQueue
    · by_cases hvd : v.id = id
      · exact absurd (hvd ▸ hq) hidnq
      · simp only [if_pos hq, completeWaiter_some] at hlu ⊢
        simp only [if_neg (show ¬ ({ v with phase := Phase.rejected (.renewal e) } : ReqTask).id = id from hvd)] at hlu ⊢
        simp [leaderActive] at hlu
    · by_cases hvd : v.id = id
      · have hv0 : v = t₀ := eq_of_findTask hnd hft hv hvd
        subst hv0
        simp only [if_neg hq, if_pos hvd]
      · simp only [if_neg hq, if_neg hvd] at hlu ⊢
        have hveq := huniq v hv t₀ hmem hlu hl
        exact absurd (by rw [hveq]; exact hid) hvd
  refine ⟨?_, ?_, ?_, ?_, ?_⟩
  · rw [updTask_ids _ id (fun u => { u with phase := .awaitClearRefresh e }) (fun u => rfl)]
    show (List.map ReqTask.id (processQueue s (some e) none).tasks).Nodup
    rw [processQueue_ids]
    exact hnd
  · intro t ht _
    show s.isRefreshing = true
    exact href t₀ hmem hl
  · intro t ht u hu hlt hlu
    rw [shape t ht hlt, shape u hu hlu]
  · intro t ht hq
    exact absurd hq (List.not_mem_nil _)
  · intro i hi
    exact absurd hi (List.not_mem_nil _)

theorem inv_commit_ok {s : Sys} (h : Inv s) {id : Nat} {t₀ : ReqTask} {d : RespData}
    (hft : findTask s id = some t₀) (hp : t₀.phase = .awaitSetRefresh d) (st : Store) :
    Inv { store := st, isAuthenticated := s.isAuthenticated, isRefreshing := false,
          failedQueue := [],
          tasks := (((s.tasks.map fun v => if v.id = id then { v with auth := d.access } else v).map
                      fun x => if x.id ∈ s.failedQueue then completeWaiter none d.access x else x).map
                    fun w => if w.id = id then { w with phase := .reissued } else w),
          submittedLog := s.submittedLog } := by
  obtain ⟨hnd, href, huniq, hqw, hqb⟩ := h
  obtain ⟨hmem, hid⟩ := findTask_mem hft
  have hl : leaderActive t₀.phase = true := by rw [hp]; rfl
  have hidnq : id ∉ s.failedQueue := by
    intro hin
    have hwv := hqw t₀ hmem (by rw [hid]; exact hin)
    rw [hp] at hwv
    simp at hwv
  have noleader : ∀ u ∈ (((s.tasks.map fun v => if v.id = id then { v with auth := d.access } else v).map
                      fun x => if x.id ∈ s.failedQueue then completeWaiter none d.access x else x).map
                    fun w => if w.id = id then { w with phase := .reissued } else w),
      leaderActive u.phase = true → False := by
    intro u hu hlu
    rcases mem_map_cond hu with ⟨w, hw, rfl⟩
    rcases mem_map_cond hw with ⟨x, hx, rfl⟩
    rcases mem_map_cond hx with ⟨v, hv, rfl⟩
    by_cases hvd : v.id = id
    · have hv0 : v = t₀ := eq_of_findTask hnd hft hv hvd
      subst hv0
      simp [hvd, hidnq, leaderActive] at hlu
    · by_cases hq : v.id ∈ s.failedQueue
      · have hwv := hqw v hv hq
        rcases completeWaiter_none d.access v with hcw | ⟨tk, _, _, hcw⟩ <;>
          simp [hvd, hq, hcw, hwv, leaderActive] at hlu
      · simp only [if_neg hvd, if_neg hq] at hlu
        have hveq := huniq v hv t₀ hmem hlu hl
        exact absurd (by rw [hveq]; exact hid) hvd
  refine ⟨?_, ?_, ?_, ?_, ?_⟩
  · show ((((s.tasks.map _).map _).map _).map ReqTask.id).Nodup
    rw [map_ids_eq (fun w => if w.id = id then { w with phase := .reissued } else w)
        (fun u => by by_cases h : u.id = id <;> simp [h])]
    rw [map_ids_eq (fun x => if x.id ∈ s.failedQueue then completeWaiter none d.access x else x)
        (fun u => by by_cases h : u.id ∈ s.failedQueue <;> simp [h, completeWaiter_id])]
    rw [map_ids_eq (fun v => if v.id = id then { v with auth := d.access } else v)
        (fun u => by by_cases h : u.id = id <;> simp [h])]
    exact hnd
  · intro t ht hlt
    exact absurd hlt (fun hc => noleader t ht hc)
  · intro t ht u hu hlt hlu
    exact absurd hlt (fun hc => noleader t ht hc)
  · intro t ht hq
    exact absurd hq (List.not_mem_nil _)
  · intro i hi
    exact absurd hi (List.not_mem_nil _)

theorem inv_cleared {s : Sys} (h : Inv s) {id : Nat} {t₀ : ReqTask} {e : Err}
    (hft : findTask s id = some t₀) (hp : t₀.phase = .awaitClearRefresh e) (st : Store) :
    Inv { store := st, isAuthenticated := s.isAuthenticated, isRefreshing := false,
          failedQueue := s.failedQueue,
          tasks := s.tasks.map fun u => if u.id = id then { u with phase := .rejected (.renewal e) } else u,
          submittedLog := s.submittedLog } := by
  obtain ⟨hnd, href, huniq, hqw, hqb⟩ := h
  obtain ⟨hmem, hid⟩ := findTask_mem hft
  have hl : leaderActive t₀.phase = true := by rw [hp]; rfl
  have hidnq : id ∉ s.failedQueue := by
    intro hin
    have hwv := hqw t₀ hmem (by rw [hid]; exact hin)
    rw [hp] at hwv
    simp at hwv
  have noleader : ∀ u ∈ s.tasks.map fun u => if u.id = id then { u with phase := .rejected (.renewal e) } else u,
      leaderActive u.phase = true → False := by
    intro u hu hlu
    rcases mem_map_cond hu with ⟨v, hv, rfl⟩
    by_cases hvd : v.id = id
    · simp only [if_pos hvd] at hlu
      simp [leaderActive] at hlu
    · simp only [if_neg hvd] at hlu
      have hveq := huniq v hv t₀ hmem hlu hl
      exact absurd (by rw [hveq]; exact hid) hvd
  refine ⟨?_, ?_, ?_, ?_, ?_⟩
  · show ((s.tasks.map _).map ReqTask.id).Nodup
    rw [map_ids_eq (fun u => if u.id = id then { u with phase := .rejected (.renewal e) } else u)
        (fun u => by by_cases h : u.id = id <;> simp [h])]
    exact hnd
  · intro t ht hlt
    exact absurd hlt (fun hc => noleader t ht hc)
  · intro t ht u hu hlt hlu
    exact absurd hlt (fun hc => noleader t ht hc)
  · intro t ht hq
    rcases mem_map_cond ht with ⟨v, hv, rfl⟩
    by_cases hvd : v.id = id
    · simp only [if_pos hvd] at hq
      have : ({ v with phase := Phase.rejected (.renewal e) } : ReqTask).id = v.id := rfl
      rw [this] at hq
      rw [hvd] at hq
      exact absurd hq hidnq
    · simp only [if_neg hvd] at hq ⊢
      exact hqw v hv hq
  · intro i hi
    exact exists_id_map (fun u => by by_cases h : u.id = id <;> simp [h]) (hqb i hi)

theorem inv_arrive {s : Sys} (h : Inv s) {id : Nat}
    (hfresh : s.tasks.any (fun t => t.id == id) = false) (e : AxErr) (ph : Phase)
    (hl : leaderActive ph = false) :
    Inv { s with tasks := s.tasks ++ [{ id := id, err := e, retry := false, auth := none, phase := ph }] } := by
  obtain ⟨hnd, href, huniq, hqw, hqb⟩ := h
  have hno : ∀ t ∈ s.tasks, t.id ≠ id := by
    intro t ht hcon
    have hx : s.tasks.any (fun t => t.id == id) = true :=
      List.any_eq_true.mpr ⟨t, ht, by simp [hcon]⟩
    rw [hfresh] at hx
    simp at hx
  refine ⟨?_, ?_, ?_, ?_, ?_⟩
  · show ((s.tasks ++ [_]).map ReqTask.id).Nodup
    rw [List.map_append]
    refine List.Nodup.append hnd (List.nodup_singleton _) ?_
    intro a ha hb
    simp only [List.map_cons, List.map_nil, List.mem_singleton] at hb
    subst hb
    rcases List.mem_map.mp ha with ⟨t, ht, hti⟩
    exact hno t ht hti
  · intro t ht hlt
    rcases List.mem_append.mp ht with ht1 | ht1
    · exact href t ht1 hlt
    · rw [List.mem_singleton] at ht1
      subst ht1
      rw [hl] at hlt
      simp at hlt
  · intro t ht u hu hlt hlu
    rcases List.mem_append.mp ht with ht1 | ht1
    · rcases List.mem_append.mp hu with hu1 | hu1
      · exact huniq t ht1 u hu1 hlt hlu
      · rw [List.mem_singleton] at hu1
        subst hu1
        rw [hl] at hlu
        simp at hlu
    · rw [List.mem_singleton] at ht1
      subst ht1
      rw [hl] at hlt
      simp at hlt
  · intro t ht hq
    rcases List.mem_append.mp ht with ht1 | ht1
    · exact hqw t ht1 hq
    · rw [List.mem_singleton] at ht1
      subst ht1
      rcases hqb _ hq with ⟨v, hv, hvi⟩
      exact absurd hvi (hno v hv)
  · intro i hi
    rcases hqb i hi with ⟨v, hv, hvi⟩
    exact ⟨v, List.mem_append_left _ hv, hvi⟩

/-- The structural invariant is preserved by every scheduler event. -/
theorem inv_step {s : Sys} (h : Inv s) (ev : Ev) : Inv (step s ev) := by
  cases ev with
  | arrive id e =>
    by_cases hfresh : s.tasks.any (fun t => t.id == id) = true
    · simpa [step, hfresh] using h
    · have hf : s.tasks.any (fun t => t.id == id) = false := by
        revert hfresh
        cases s.tasks.any (fun t => t.id == id) <;> simp
      by_cases hs : e.status = some 401
      · simp only [step, hf, hs, Bool.false_eq_true, if_false, if_true, if_pos]
        exact inv_arrive h hf e _ rfl
      · simp only [step, hf, hs, Bool.false_eq_true, if_false, if_neg hs]
        exact inv_arrive h hf e _ rfl
  | readDone id fault =>
    cases hft : findTask s id with
    | none => simpa [step, hft] using h
    | some t₀ =>
      cases hp : t₀.phase
      case awaitGetRefresh =>
        cases hgr : getRefreshToken s.store fault with
        | none =>
          simp only [step, hft, hp, hgr]
          exact inv_updTask_same h hft (fun u => rfl) (by simp [hp]) (by rw [hp]; rfl)
        | some tk =>
          by_cases htk : tk = ""
          · simp only [step, hft, hp, hgr, htk, if_pos]
            exact inv_updTask_same h hft (fun u => rfl) (by simp [hp]) (by rw [hp]; rfl)
          · by_cases hir : s.isRefreshing = true
            · simp only [step, hft, hp, hgr, if_neg htk, hir, if_true]
              exact inv_enqueue h hft hp
            · have hir' : s.isRefreshing = false := by
                revert hir
                cases s.isRefreshing <;> simp
              simp only [step, hft, hp, hgr, if_neg htk, hir', Bool.false_eq_true, if_false]
              exact inv_lead h hft hp hir'
      all_goals simpa [step, hft, hp] using h
  | postDone id r =>
    cases hft : findTask s id with
    | none => simpa [step, hft] using h
    | some t₀ =>
      cases hp : t₀.phase
      case awaitPost tok =>
        cases r with
        | ok d =>
          simp only [step, hft, hp]
          exact inv_updTask_same h hft (fun u => rfl) (by simp [hp]) (by rw [hp]; rfl)
        | err e =>
          simp only [step, hft, hp]
          exact inv_settle_err h hft (by rw [hp]; rfl) _
      all_goals simpa [step, hft, hp] using h
  | setDone id res =>
    cases hft : findTask s id with
    | none => simpa [step, hft] using h
    | some t₀ =>
      cases hp : t₀.phase
      case awaitSetRefresh d =>
        cases res with
        | none =>
          simp only [step, hft, hp]
          exact inv_commit_ok h hft hp _
        | some e =>
          simp only [step, hft, hp]
          exact inv_settle_err h hft (by rw [hp]; rfl) _
      all_goals simpa [step, hft, hp] using h
  | clearDone id =>
    cases hft : findTask s id with
    | none => simpa [step, hft] using h
    | some t₀ =>
      cases hp : t₀.phase
      case awaitClearRefresh e =>
        simp only [step, hft, hp]
        exact inv_cleared h hft hp _
      all_goals simpa [step, hft, hp] using h
  | retryResponse id r =>
    cases hft : findTask s id with
    | none => simpa [step, hft] using h
    | some t₀ =>
      cases hp : t₀.phase
      case reissued =>
        cases r with
        | none =>
          simp only [step, hft, hp]
          exact inv_updTask_same h hft (fun u => rfl) (by simp [hp]) (by rw [hp]; rfl)
        | some e2 =>
          by_cases hc : e2.status = some 401 ∧ t₀.retry = false
          · simp only [step, hft, hp, if_pos hc]
            exact inv_updTask_same h hft (fun u => rfl) (by simp [hp]) (by rw [hp]; rfl)
          · simp only [step, hft, hp, if_neg hc]
            exact inv_updTask_same h hft (fun u => rfl) (by simp [hp]) (by rw [hp]; rfl)
      all_goals simpa [step, hft, hp] using h

/-- The structural invariant holds along every schedule. -/
theorem inv_run {s : Sys} (h : Inv s) (evs : List Ev) : Inv (run s evs) := by
  induction evs generalizing s with
  | nil => exact h
  | cons e evs ih => exact ih (inv_step h e)

/-- The invariant holds in any quiescent initial state. -/
theorem inv_initSys (acc rt : Option Token) (auth : Bool) : Inv (initSys acc rt auth) := by
  refine ⟨?_, ?_, ?_, ?_, ?_⟩ <;> simp [initSys]

theorem not_mem_of_contains_false {l : List Token} {a : Token}
    (h : l.contains a = false) : a ∉ l := by
  intro hm
  have hx : l.contains a = true := List.elem_iff.mpr hm
  rw [h] at hx
  simp at hx

/-- Only the mutex holder can be suspended with a pending rotated pair. -/
theorem pend_unique {s : Sys} (h : Inv s) {id : Nat} {t₀ : ReqTask}
    (hft : findTask s id = some t₀) (hl : leaderActive t₀.phase = true) :
    ∀ u ∈ s.tasks, ∀ d', u.phase = .awaitSetRefresh d' → u = t₀ := by
  obtain ⟨hnd, href, huniq, hqw, hqb⟩ := h
  obtain ⟨hmem, _⟩ := findTask_mem hft
  intro u hu d' hphase
  exact huniq u hu t₀ hmem (by rw [hphase]; rfl) hl

/-- With no renewal in flight, no task is suspended on setRefreshToken. -/
theorem no_pend_of_idle {s : Sys} (h : Inv s) (hir : s.isRefreshing = false) :
    ∀ u ∈ s.tasks, ∀ d', u.phase ≠ .awaitSetRefresh d' := by
  obtain ⟨_, href, _, _, _⟩ := h
  intro u hu d' hphase
  have hx := href u hu (by rw [hphase]; rfl)
  rw [hir] at hx
  simp at hx

/-- Rotation bookkeeping is preserved by every event of a rotating
schedule. -/
theorem rot_step {s : Sys} (hI : Inv s) (h : RotOK s) {ev : Ev}
    (hfr : freshEv s ev = true) : RotOK (step s ev) := by
  obtain ⟨hsub, hidle, hpend⟩ := h
  obtain ⟨hnd, href, huniq, hqw, hqb⟩ := hI
  cases ev with
  | arrive id e =>
    by_cases hfresh : s.tasks.any (fun t => t.id == id) = true
    · simpa [step, hfresh] using ⟨hsub, hidle, hpend⟩
    · have hf : s.tasks.any (fun t => t.id == id) = false := by
        revert hfresh
        cases s.tasks.any (fun t => t.id == id) <;> simp
      by_cases hs : e.status = some 401 <;>
      · simp only [step, hf, hs, Bool.false_eq_true, if_false, if_true, if_pos, if_neg, not_false_iff]
        refine ⟨hsub, hidle, ?_⟩
        intro t ht d hphase
        rcases List.mem_append.mp ht with ht1 | ht1
        · exact hpend t ht1 d hphase
        · rw [List.mem_singleton] at ht1
          subst ht1
          simp at hphase
  | readDone id fault =>
    cases hft : findTask s id with
    | none => simpa [step, hft] using ⟨hsub, hidle, hpend⟩
    | some t₀ =>
      have hmem := (findTask_mem hft).1
      have hid := (findTask_mem hft).2
      cases hp : t₀.phase
      case awaitGetRefresh =>
        have reject_case : ∀ g : ReqTask → ReqTask, (∀ u, (g u).id = u.id) →
            (∀ u, (g u).phase = .rejected (.original u.err) ∨ (g u).phase = .waiting ∨ (g u).phase = u.phase) →
            RotOK (updTask s id g) := by
          intro g hgid hgp
          refine ⟨hsub, hidle, ?_⟩
          intro t ht d hphase
          rcases mem_updTask ht with ⟨v, hv, rfl⟩
          by_cases hvd : v.id = id
          · rw [if_pos hvd] at hphase
            rcases hgp v with hx | hx | hx <;> rw [hx] at hphase
            · simp at hphase
            · simp at hphase
            · have hv0 : v = t₀ := eq_of_findTask hnd hft hv hvd
              rw [hv0, hp] at hphase
              simp at hphase
          · rw [if_neg hvd] at hphase
            exact hpend v hv d hphase
        cases hgr : getRefreshToken s.store fault with
        | none =>
          simp only [step, hft, hp, hgr]
          exact reject_case _ (fun u => rfl) (fun u => Or.inl rfl)
        | some tk =>
          by_cases htk : tk = ""
          · simp only [step, hft, hp, hgr, htk, if_pos]
            exact reject_case _ (fun u => rfl) (fun u => Or.inl rfl)
          · by_cases hir : s.isRefreshing = true
            · simp only [step, hft, hp, hgr, if_neg htk, hir, if_true]
              have hx := reject_case (fun u => { u with phase := .waiting }) (fun u => rfl)
                  (fun u => Or.inr (Or.inl rfl))
              exact ⟨hx.1, hx.2.1, hx.2.2⟩
            · have hir' : s.isRefreshing = false := by
                revert hir
                cases s.isRefreshing <;> simp
              have hrt : s.store.refreshToken = some tk := by
                by_cases hfa : fault
                · simp [getRefreshToken, hfa] at hgr
                · simpa [getRefreshToken, hfa] using hgr
              have htknot : tk ∉ s.submittedLog := hidle hir' tk hrt
              simp only [step, hft, hp, hgr, if_neg htk, hir', Bool.false_eq_true, if_false]
              refine ⟨?_, ?_, ?_⟩
              · refine List.Nodup.append hsub (List.nodup_singleton _) ?_
                intro a ha hb
                rw [List.mem_singleton] at hb
                subst hb
                exact htknot ha
              · intro hcon
                simp at hcon
              · intro t ht d hphase
                exfalso
                rcases mem_updTask ht with ⟨v, hv, rfl⟩
                by_cases hvd : v.id = id
                · rw [if_pos hvd] at hphase
                  simp at hphase
                · rw [if_neg hvd] at hphase
                  exact no_pend_of_idle ⟨hnd, href, huniq, hqw, hqb⟩ hir' v hv d hphase
      all_goals simpa [step, hft, hp] using ⟨hsub, hidle, hpend⟩
  | postDone id r =>
    cases hft : findTask s id with
    | none => simpa [step, hft] using ⟨hsub, hidle, hpend⟩
    | some t₀ =>
      have hmem := (findTask_mem hft).1
      have hid := (findTask_mem hft).2
      cases hp : t₀.phase
      case awaitPost tok =>
        have htrue : s.isRefreshing = true := href t₀ hmem (by rw [hp]; rfl)
        cases r with
        | ok d =>
          simp only [step, hft, hp]
          refine ⟨hsub, ?_, ?_⟩
          · intro hif
            have hif' : s.isRefreshing = false := hif
            rw [htrue] at hif'
            simp at hif'
          · intro t ht d' hphase
            rcases mem_updTask ht with ⟨v, hv, rfl⟩
            by_cases hvd : v.id = id
            · rw [if_pos hvd] at hphase
              have hdd : d' = d := by
                have : ({ v with phase := Phase.awaitSetRefresh d } : ReqTask).phase = Phase.awaitSetRefresh d := rfl
                rw [this] at hphase
                injection hphase.symm
              subst hdd
              intro tk htkr
              simp only [freshEv, htkr, Bool.not_eq_true'] at hfr
              exact not_mem_of_contains_false hfr
            · rw [if_neg hvd] at hphase
              have hv0 := huniq v hv t₀ hmem (by rw [hphase]; rfl) (by rw [hp]; rfl)
              exact absurd (by rw [hv0]; exact hid) hvd
        | err e =>
          simp only [step, hft, hp]
          refine ⟨hsub, ?_, ?_⟩
          · intro hif
            have hif' : s.isRefreshing = false := hif
            rw [htrue] at hif'
            simp at hif'
          · intro t ht d' hphase
            exfalso
            rcases mem_updTask ht with ⟨w, hw, rfl⟩
            rcases mem_processQueue hw with ⟨v, hv, rfl⟩
            by_cases hq : v.id ∈ s.failedQueue
            · by_cases hvd : v.id = id
              · have hv0 : v = t₀ := eq_of_findTask hnd hft hv hvd
                have hwv := hqw v hv hq
                rw [hv0, hp] at hwv
                simp at hwv
              · simp [hq, completeWaiter_some, hvd] at hphase
            · by_cases hvd : v.id = id
              · have hv0 : v = t₀ := eq_of_findTask hnd hft hv hvd
                subst hv0
                have hq' : id ∉ s.failedQueue := hvd ▸ hq
                simp [hq, hq', hvd] at hphase
              · simp only [if_neg hq, if_neg hvd] at hphase
                have hv0 := huniq v hv t₀ hmem (by rw [hphase]; rfl) (by rw [hp]; rfl)
                exact absurd (by rw [hv0]; exact hid) hvd
      all_goals simpa [step, hft, hp] using ⟨hsub, hidle, hpend⟩
  | setDone id res =>
    cases hft : findTask s id with
    | none => simpa [step, hft] using ⟨hsub, hidle, hpend⟩
    | some t₀ =>
      have hmem := (findTask_mem hft).1
      have hid := (findTask_mem hft).2
      cases hp : t₀.phase
      case awaitSetRefresh d =>
        have htrue : s.isRefreshing = true := href t₀ hmem (by rw [hp]; rfl)
        cases res with
        | none =>
          simp only [step, hft, hp]
          refine ⟨hsub, ?_, ?_⟩
          · intro _ tk hrt
            have hrt' : d.renewal = some tk := hrt
            exact hpend t₀ hmem d hp tk hrt'
          · intro t ht d' hphase
            exfalso
            rcases mem_map_cond ht with ⟨w, hw, rfl⟩
            rcases mem_map_cond hw with ⟨x, hx, rfl⟩
            rcases mem_map_cond hx with ⟨v, hv, rfl⟩
            by_cases hvd : v.id = id
            · have hv0 : v = t₀ := eq_of_findTask hnd hft hv hvd
              subst hv0
              have hidnq : v.id ∉ s.failedQueue := by
                intro hin
                have hwv := hqw v hv hin
                rw [hp] at hwv
                simp at hwv
              have hidnq' : id ∉ s.failedQueue := hvd ▸ hidnq
              simp [hvd, hidnq, hidnq'] at hphase
            · by_cases hq : v.id ∈ s.failedQueue
              · rcases completeWaiter_none d.access v with hcw | ⟨tk, _, _, hcw⟩
                · have hwv := hqw v hv hq
                  simp [hvd, hq, hcw, hwv] at hphase
                · simp [hvd, hq, hcw] at hphase
              · simp [hvd, hq] at hphase
                have hv0 := huniq v hv t₀ hmem (by rw [hphase]; rfl) (by rw [hp]; rfl)
                exact absurd (by rw [hv0]; exact hid) hvd
        | some e =>
          simp only [step, hft, hp]
          refine ⟨hsub, ?_, ?_⟩
          · intro hif
            have hif' : s.isRefreshing = false := hif
            rw [htrue] at hif'
            simp at hif'
          · intro t ht d' hphase
            exfalso
            rcases mem_updTask ht with ⟨w, hw, rfl⟩
            rcases mem_processQueue hw with ⟨v, hv, rfl⟩
            by_cases hq : v.id ∈ s.failedQueue
            · by_cases hvd : v.id = id
              · have hv0 : v = t₀ := eq_of_findTask hnd hft hv hvd
                have hwv := hqw v hv hq
                rw [hv0, hp] at hwv
                simp at hwv
              · simp [hq, completeWaiter_some, hvd] at hphase
            · by_cases hvd : v.id = id
              · have hv0 : v = t₀ := eq_of_findTask hnd hft hv hvd
                subst hv0
                have hq' : id ∉ s.failedQueue := hvd ▸ hq
                simp [hq, hq', hvd] at hphase
              · simp only [if_neg hq, if_neg hvd] at hphase
                have hv0 := huniq v hv t₀ hmem (by rw [hphase]; rfl) (by rw [hp]; rfl)
                exact absurd (by rw [hv0]; exact hid) hvd
      all_goals simpa [step, hft, hp] using ⟨hsub, hidle, hpend⟩
  | clearDone id =>
    cases hft : findTask s id with
    | none => simpa [step, hft] using ⟨hsub, hidle, hpend⟩
    | some t₀ =>
      have hmem := (findTask_mem hft).1
      have hid := (findTask_mem hft).2
      cases hp : t₀.phase
      case awaitClearRefresh e =>
        simp only [step, hft, hp]
        refine ⟨hsub, ?_, ?_⟩
        · intro _ tk hrt
          have hrt' : (none : Option Token) = some tk := hrt
          simp at hrt'
        · intro t ht d' hphase
          exfalso
          rcases mem_updTask ht with ⟨v, hv, rfl⟩
          by_cases hvd : v.id = id
          · simp [hvd] at hphase
          · rw [if_neg hvd] at hphase
            have hv0 := huniq v hv t₀ hmem (by rw [hphase]; rfl) (by rw [hp]; rfl)
            exact absurd (by rw [hv0]; exact hid) hvd
      all_goals simpa [step, hft, hp] using ⟨hsub, hidle, hpend⟩
  | retryResponse id r =>
    cases hft : findTask s id with
    | none => simpa [step, hft] using ⟨hsub, hidle, hpend⟩
    | some t₀ =>
      have hmem := (findTask_mem hft).1
      cases hp : t₀.phase
      case reissued =>
        have transfer : ∀ g : ReqTask → ReqTask, (∀ u, (g u).id = u.id) →
            (∀ u, ∀ d', (g u).phase = .awaitSetRefresh d' → u.phase = .awaitSetRefresh d') →
            RotOK (updTask s id g) := by
          intro g hgid hgp
          refine ⟨hsub, hidle, ?_⟩
          intro t ht d hphase
          rcases mem_updTask ht with ⟨v, hv, rfl⟩
          by_cases hvd : v.id = id
          · rw [if_pos hvd] at hphase
            exact hpend v hv d (hgp v d hphase)
          · rw [if_neg hvd] at hphase
            exact hpend v hv d hphase
        cases r with
        | none =>
          simp only [step, hft, hp]
          exact transfer _ (fun u => rfl) (fun u d' hx => by simp at hx)
        | some e2 =>
          by_cases hc : e2.status = some 401 ∧ t₀.retry = false
          · simp only [step, hft, hp, if_pos hc]
            exact transfer _ (fun u => rfl) (fun u d' hx => by simp at hx)
          · simp only [step, hft, hp, if_neg hc]
            exact transfer _ (fun u => rfl) (fun u d' hx => by simp at hx)
      all_goals simpa [step, hft, hp] using ⟨hsub, hidle, hpend⟩

/-- Transfer of a per-pending-pair property through a task-list map. -/
theorem map_pend {l : List ReqTask} {g : ReqTask → ReqTask} {P : RespData → Prop}
    (hg : ∀ u ∈ l, ∀ d, (g u).phase = .awaitSetRefresh d → P d) :
    ∀ t ∈ l.map g, ∀ d, t.phase = .awaitSetRefresh d → P d := by
  intro t ht d hph
  rcases mem_map_cond ht with ⟨v, hv, rfl⟩
  exact hg v hv d hph

/-- A consumed renewal token stays consumed along every rotating event. -/
theorem consumed_step {r : Token} {s : Sys} (h : Consumed r s) {ev : Ev}
    (hfr : freshEv s ev = true) : Consumed r (step s ev) := by
  obtain ⟨h1, h2, h3⟩ := h
  cases ev with
  | arrive id e =>
    by_cases hfresh : s.tasks.any (fun t => t.id == id) = true
    · simpa [step, hfresh] using ⟨h1, h2, h3⟩
    · have hf : s.tasks.any (fun t => t.id == id) = false := by
        revert hfresh
        cases s.tasks.any (fun t => t.id == id) <;> simp
      by_cases hs : e.status = some 401 <;>
      · simp only [step, hf, hs, Bool.false_eq_true, if_false, if_true, if_pos, if_neg, not_false_iff]
        refine ⟨h1, h2, ?_⟩
        intro t ht d hphase
        rcases List.mem_append.mp ht with ht1 | ht1
        · exact h3 t ht1 d hphase
        · rw [List.mem_singleton] at ht1
          subst ht1
          simp at hphase
  | readDone id fault =>
    cases hft : findTask s id with
    | none => simpa [step, hft] using ⟨h1, h2, h3⟩
    | some t₀ =>
      cases hp : t₀.phase
      case awaitGetRefresh =>
        have htr : ∀ g : ReqTask → ReqTask,
            (∀ u ∈ s.tasks, ∀ d, (g u).phase = .awaitSetRefresh d → d.renewal ≠ some r) →
            ∀ t ∈ (updTask s id g).tasks, ∀ d, t.phase = .awaitSetRefresh d → d.renewal ≠ some r := by
          intro g hg
          exact map_pend (fun u hu d hph => by
            by_cases hvd : u.id = id
            · rw [if_pos hvd] at hph
              exact hg u hu d hph
            · rw [if_neg hvd] at hph
              exact h3 u hu d hph)
        cases hgr : getRefreshToken s.store fault with
        | none =>
          simp only [step, hft, hp, hgr]
          refine ⟨h1, h2, htr _ ?_⟩
          intro u hu d hph
          simp at hph
        | some tk =>
          by_cases htk : tk = ""
          · simp only [step, hft, hp, hgr, htk, if_pos]
            refine ⟨h1, h2, htr _ ?_⟩
            intro u hu d hph
            simp at hph
          · by_cases hir : s.isRefreshing = true
            · simp only [step, hft, hp, hgr, if_neg htk, hir, if_true]
              refine ⟨h1, h2, htr _ ?_⟩
              intro u hu d hph
              simp at hph
            · have hir' : s.isRefreshing = false := by
                revert hir
                cases s.isRefreshing <;> simp
              simp only [step, hft, hp, hgr, if_neg htk, hir', Bool.false_eq_true, if_false]
              refine ⟨List.mem_append_left _ h1, h2, htr _ ?_⟩
              intro u hu d hph
              simp at hph
      all_goals simpa [step, hft, hp] using ⟨h1, h2, h3⟩
  | postDone id rr =>
    cases hft : findTask s id with
    | none => simpa [step, hft] using ⟨h1, h2, h3⟩
    | some t₀ =>
      cases hp : t₀.phase
      case awaitPost tok =>
        cases rr with
        | ok d =>
          simp only [step, hft, hp]
          refine ⟨h1, h2, ?_⟩
          apply map_pend
          intro u hu d' hph
          by_cases hvd : u.id = id
          · rw [if_pos hvd] at hph
            have hph' : Phase.awaitSetRefresh d = Phase.awaitSetRefresh d' := hph
            have hdd : d' = d := by injection hph'.symm
            subst hdd
            intro hcon
            simp only [freshEv, hcon, Bool.not_eq_true'] at hfr
            exact not_mem_of_contains_false hfr h1
          · rw [if_neg hvd] at hph
            exact h3 u hu d' hph
        | err e =>
          simp only [step, hft, hp]
          refine ⟨h1, h2, ?_⟩
          apply map_pend
          intro u hu d' hph
          by_cases hvd : u.id = id
          · rw [if_pos hvd] at hph
            simp at hph
          · rw [if_neg hvd] at hph
            rcases mem_processQueue hu with ⟨v, hv, rfl⟩
            by_cases hq : v.id ∈ s.failedQueue
            · rw [if_pos hq, completeWaiter_some] at hph
              simp at hph
            · rw [if_neg hq] at hph
              exact h3 v hv d' hph
      all_goals simpa [step, hft, hp] using ⟨h1, h2, h3⟩
  | setDone id res =>
    cases hft : findTask s id with
    | none => simpa [step, hft] using ⟨h1, h2, h3⟩
    | some t₀ =>
      have hmem := (findTask_mem hft).1
      cases hp : t₀.phase
      case awaitSetRefresh d =>
        cases res with
        | none =>
          simp only [step, hft, hp]
          refine ⟨h1, ?_, ?_⟩
          · exact h3 t₀ hmem d hp
          · apply map_pend
            intro u hu d' hph
            by_cases hvd : u.id = id
            · rw [if_pos hvd] at hph
              simp at hph
            · rw [if_neg hvd] at hph
              rcases mem_map_cond hu with ⟨x, hx, rfl⟩
              by_cases hq : x.id ∈ s.failedQueue
              · have hq2 : x.id ∈ (updTask { s with store := setRefreshToken s.store d.renewal } id
                    fun u => { u with auth := d.access }).failedQueue := hq
                rw [if_pos hq2] at hph
                rcases completeWaiter_none d.access x with hcw | ⟨tk, _, _, hcw⟩
                · rw [hcw] at hph
                  rcases mem_map_cond hx with ⟨v, hv, rfl⟩
                  by_cases hvd2 : v.id = id
                  · rw [if_pos hvd2] at hph
                    have hph' : v.phase = Phase.awaitSetRefresh d' := hph
                    exact h3 v hv d' hph'
                  · rw [if_neg hvd2] at hph
                    exact h3 v hv d' hph
                · rw [hcw] at hph
                  simp at hph
              · have hq2 : x.id ∉ (updTask { s with store := setRefreshToken s.store d.renewal } id
                    fun u => { u with auth := d.access }).failedQueue := hq
                rw [if_neg hq2] at hph
                rcases mem_map_cond hx with ⟨v, hv, rfl⟩
                by_cases hvd2 : v.id = id
                · rw [if_pos hvd2] at hph
                  have hph' : v.phase = Phase.awaitSetRefresh d' := hph
                  exact h3 v hv d' hph'
                · rw [if_neg hvd2] at hph
                  exact h3 v hv d' hph
        | some e =>
          simp only [step, hft, hp]
          refine ⟨h1, h2, ?_⟩
          apply map_pend
          intro u hu d' hph
          by_cases hvd : u.id = id
          · rw [if_pos hvd] at hph
            simp at hph
          · rw [if_neg hvd] at hph
            rcases mem_processQueue hu with ⟨v, hv, rfl⟩
            by_cases hq : v.id ∈ s.failedQueue
            · rw [if_pos hq, completeWaiter_some] at hph
              simp at hph
            · rw [if_neg hq] at hph
              exact h3 v hv d' hph
      all_goals simpa [step, hft, hp] using ⟨h1, h2, h3⟩
  | clearDone id =>
    cases hft : findTask s id with
    | none => simpa [step, hft] using ⟨h1, h2, h3⟩
    | some t₀ =>
      cases hp : t₀.phase
      case awaitClearRefresh e =>
        simp only [step, hft, hp]
        refine ⟨h1, by simp [clearRefreshToken], ?_⟩
        apply map_pend
        intro u hu d' hph
        by_cases hvd : u.id = id
        · rw [if_pos hvd] at hph
          simp at hph
        · rw [if_neg hvd] at hph
          exact h3 u hu d' hph
      all_goals simpa [step, hft, hp] using ⟨h1, h2, h3⟩
  | retryResponse id rr =>
    cases hft : findTask s id with
    | none => simpa [step, hft] using ⟨h1, h2, h3⟩
    | some t₀ =>
      cases hp : t₀.phase
      case reissued =>
        have htr : ∀ g : ReqTask → ReqTask,
            (∀ u ∈ s.tasks, ∀ d, (g u).phase = .awaitSetRefresh d → d.renewal ≠ some r) →
            ∀ t ∈ (updTask s id g).tasks, ∀ d, t.phase = .awaitSetRefresh d → d.renewal ≠ some r := by
          intro g hg
          exact map_pend (fun u hu d hph => by
            by_cases hvd : u.id = id
            · rw [if_pos hvd] at hph
              exact hg u hu d hph
            · rw [if_neg hvd] at hph
              exact h3 u hu d hph)
        cases rr with
        | none =>
          simp only [step, hft, hp]
          exact ⟨h1, h2, htr _ (by intro u hu d hph; simp at hph)⟩
        | some e2 =>
          by_cases hc : e2.status = some 401 ∧ t₀.retry = false
          · simp only [step, hft, hp, if_pos hc]
            exact ⟨h1, h2, htr _ (by intro u hu d hph; simp at hph)⟩
          · simp only [step, hft, hp, if_neg hc]
            exact ⟨h1, h2, htr _ (by intro u hu d hph; simp at hph)⟩
      all_goals simpa [step, hft, hp] using ⟨h1, h2, h3⟩

/-- Rotating-schedule induction: the structural invariant together with
the rotation bookkeeping holds along every rotating schedule. -/
theorem rot_run {s : Sys} (hI : Inv s) (h : RotOK s) {evs : List Ev}
    (hg : goodFrom s evs = true) : RotOK (run s evs) := by
  induction evs generalizing s with
  | nil => exact h
  | cons e evs ih =>
    rw [goodFrom] at hg
    simp only [Bool.and_eq_true] at hg
    obtain ⟨hg1, hg2⟩ := hg
    exact ih (inv_step hI e) (rot_step hI h hg1) hg2

/-- A consumed renewal token stays consumed along every rotating
schedule. -/
theorem consumed_run {r : Token} {s : Sys} (h : Consumed r s) {evs : List Ev}
    (hg : goodFrom s evs = true) : Consumed r (run s evs) := by
  induction evs generalizing s with
  | nil => exact h
  | cons e evs ih =>
    rw [goodFrom] at hg
    simp only [Bool.and_eq_true] at hg
    obtain ⟨hg1, hg2⟩ := hg
    exact ih (consumed_step h hg1) hg2

/-! Tracking a task through the task-list transformations. -/

theorem find?_map_pres {l : List ReqTask} {g : ReqTask → ReqTask}
    (hg : ∀ u, (g u).id = u.id) (j : Nat) :
    (l.map g).find? (fun t => t.id == j) = (l.find? (fun t => t.id == j)).map g := by
  induction l with
  | nil => rfl
  | cons a l ih =>
    rw [List.map_cons, List.find?_cons, List.find?_cons, hg a]
    cases hb : (a.id == j)
    · simpa [hb] using ih
    · simp [hb]

theorem findTask_updTask {s : Sys} {id : Nat} (f : ReqTask → ReqTask)
    (hf : ∀ u, (f u).id = u.id) (j : Nat) :
    findTask (updTask s id f) j
      = (findTask s j).map (fun u => if u.id = id then f u else u) :=
  find?_map_pres (fun u => by by_cases h : u.id = id <;> simp [h, hf]) j

theorem findTask_processQueue {s : Sys} {e : Option Err} {tok : Option Token} (j : Nat) :
    findTask (processQueue s e tok) j
      = (findTask s j).map (fun u => if u.id ∈ s.failedQueue then completeWaiter e tok u else u) :=
  find?_map_pres (fun u => by by_cases h : u.id ∈ s.failedQueue <;> simp [h, completeWaiter_id]) j

/-! Branch equations of the step function, used to execute scenarios
symbolically. -/

theorem lead_eq {s : Sys} {id : Nat} {t : ReqTask} {r1 : Token}
    (hft : findTask s id = some t) (hp : t.phase = .awaitGetRefresh)
    (hir : s.isRefreshing = false) (hrt : s.store.refreshToken = some r1) (hr1 : r1 ≠ "") :
    step s (.readDone id false)
      = { (updTask s id fun u => { u with retry := true, phase := .awaitPost r1 }) with
          isRefreshing := true, submittedLog := s.submittedLog ++ [r1] } := by
  simp [step, hft, hp, getRefreshToken, hrt, hr1, hir]

theorem enqueue_eq {s : Sys} {id : Nat} {t : ReqTask} {r1 : Token} (fault : Bool)
    (hft : findTask s id = some t) (hp : t.phase = .awaitGetRefresh)
    (hir : s.isRefreshing = true) (hrt : getRefreshToken s.store fault = some r1) (hr1 : r1 ≠ "") :
    step s (.readDone id fault)
      = { (updTask s id fun u => { u with phase := .waiting }) with
          failedQueue := s.failedQueue ++ [id] } := by
  simp [step, hft, hp, hrt, hr1, hir]

theorem postok_eq {s : Sys} {id : Nat} {t : ReqTask} {tok : Token} {d : RespData}
    (hft : findTask s id = some t) (hp : t.phase = .awaitPost tok) :
    step s (.postDone id (.ok d))
      = updTask { s with store := setAccessToken s.store d.access } id
          fun u => { u with phase := .awaitSetRefresh d } := by
  simp [step, hft, hp]

theorem posterr_eq {s : Sys} {id : Nat} {t : ReqTask} {tok : Token} {e : Err}
    (hft : findTask s id = some t) (hp : t.phase = .awaitPost tok) :
    step s (.postDone id (.err e))
      = updTask { (processQueue s (some e) none) with store := clearAccessToken s.store } id
          fun u => { u with phase := .awaitClearRefresh e } := by
  simp [step, hft, hp]

theorem setok_eq {s : Sys} {id : Nat} {t : ReqTask} {d : RespData}
    (hft : findTask s id = some t) (hp : t.phase = .awaitSetRefresh d) :
    step s (.setDone id none)
      = { (updTask (processQueue (updTask { s with store := setRefreshToken s.store d.renewal } id
              fun u => { u with auth := d.access }) none d.access) id
            fun u => { u with phase := .reissued }) with isRefreshing := false } := by
  simp [step, hft, hp]

theorem seterr_eq {s : Sys} {id : Nat} {t : ReqTask} {d : RespData} {e : Err}
    (hft : findTask s id = some t) (hp : t.phase = .awaitSetRefresh d) :
    step s (.setDone id (some e))
      = updTask { (processQueue s (some e) none) with store := clearAccessToken s.store } id
          fun u => { u with phase := .awaitClearRefresh e } := by
  simp [step, hft, hp]

theorem clear_eq {s : Sys} {id : Nat} {t : ReqTask} {e : Err}
    (hft : findTask s id = some t) (hp : t.phase = .awaitClearRefresh e) :
    step s (.clearDone id)
      = { (updTask { s with store := clearRefreshToken s.store } id
            fun u => { u with phase := .rejected (.renewal e) }) with isRefreshing := false } := by
  simp [step, hft, hp]

/-! Per-step effect lemmas used to execute the claimed scenarios. -/

theorem leader_not_queued {s : Sys} (hI : Inv s) {id : Nat} {ℓ : ReqTask}
    (hft : findTask s id = some ℓ) (hnw : ℓ.phase ≠ .waiting) : id ∉ s.failedQueue := by
  obtain ⟨hnd, href, huniq, hqw, hqb⟩ := hI
  obtain ⟨hmem, hid⟩ := findTask_mem hft
  intro hin
  exact hnw (hqw ℓ hmem (by rw [hid]; exact hin))

theorem atMostOnePost_of_inv {s : Sys} (hI : Inv s) : AtMostOnePost s := by
  obtain ⟨hnd, href, huniq, hqw, hqb⟩ := hI
  intro t ht u hu hpt hpu
  have hlt : leaderActive t.phase = true := by
    revert hpt
    cases t.phase <;> simp [inFlightPost, leaderActive]
  have hlu : leaderActive u.phase = true := by
    revert hpu
    cases u.phase <;> simp [inFlightPost, leaderActive]
  exact huniq t ht u hu hlt hlu

theorem settled_err_tasks {s : Sys} {id : Nat} {e : Err} (hidnq : id ∉ s.failedQueue) :
    ∀ u ∈ (updTask { (processQueue s (some e) none) with store := clearAccessToken s.store } id
        fun x => { x with phase := .awaitClearRefresh e }).tasks,
      u.id ∈ s.failedQueue → u.phase = .rejected (.renewal e) := by
  intro u hu hq
  rcases mem_updTask hu with ⟨w, hw, rfl⟩
  rcases mem_processQueue hw with ⟨v, hv, rfl⟩
  set w0 := if v.id ∈ s.failedQueue then completeWaiter (some e) none v else v with hw0
  have hwid : w0.id = v.id := by
    rw [hw0]
    by_cases hvq : v.id ∈ s.failedQueue <;> simp [hvq, completeWaiter_id]
  by_cases hwd : w0.id = id
  · exfalso
    rw [if_pos hwd] at hq
    have hq' : w0.id ∈ s.failedQueue := hq
    exact hidnq (hwd ▸ hq')
  · rw [if_neg hwd] at hq ⊢
    have hvq : v.id ∈ s.failedQueue := hwid ▸ hq
    rw [hw0, if_pos hvq, completeWaiter_some]

theorem posterr_stage {s : Sys} (hI : Inv s) {id : Nat} {ℓ : ReqTask} {tok : Token} (e : Err)
    (hft : findTask s id = some ℓ) (hp : ℓ.phase = .awaitPost tok) :
    findTask (step s (.postDone id (.err e))) id = some { ℓ with phase := .awaitClearRefresh e } ∧
    (∀ u ∈ (step s (.postDone id (.err e))).tasks, u.id ∈ s.failedQueue →
        u.phase = .rejected (.renewal e)) ∧
    (step s (.postDone id (.err e))).store.accessToken = none ∧
    (step s (.postDone id (.err e))).store.refreshToken = s.store.refreshToken ∧
    (step s (.postDone id (.err e))).isAuthenticated = s.isAuthenticated ∧
    (step s (.postDone id (.err e))).failedQueue = [] := by
  obtain ⟨hmem, hid⟩ := findTask_mem hft
  have hidnq : id ∉ s.failedQueue := leader_not_queued hI hft (by rw [hp]; simp)
  rw [posterr_eq hft hp]
  refine ⟨?_, settled_err_tasks hidnq, rfl, rfl, rfl, rfl⟩
  rw [findTask_updTask (fun u => { u with phase := .awaitClearRefresh e }) (fun u => rfl) id]
  have h2 : findTask { (processQueue s (some e) none) with store := clearAccessToken s.store } id
      = findTask (processQueue s (some e) none) id := rfl
  rw [h2, findTask_processQueue id, hft]
  simp [hid, hidnq]

theorem seterr_stage {s : Sys} (hI : Inv s) {id : Nat} {ℓ : ReqTask} {d : RespData} (e : Err)
    (hft : findTask s id = some ℓ) (hp : ℓ.phase = .awaitSetRefresh d) :
    findTask (step s (.setDone id (some e))) id = some { ℓ with phase := .awaitClearRefresh e } ∧
    (∀ u ∈ (step s (.setDone id (some e))).tasks, u.id ∈ s.failedQueue →
        u.phase = .rejected (.renewal e)) ∧
    (step s (.setDone id (some e))).store.accessToken = none ∧
    (step s (.setDone id (some e))).store.refreshToken = s.store.refreshToken ∧
    (step s (.setDone id (some e))).isAuthenticated = s.isAuthenticated ∧
    (step s (.setDone id (some e))).failedQueue = [] := by
  obtain ⟨hmem, hid⟩ := findTask_mem hft
  have hidnq : id ∉ s.failedQueue := leader_not_queued hI hft (by rw [hp]; simp)
  rw [seterr_eq hft hp]
  refine ⟨?_, settled_err_tasks hidnq, rfl, rfl, rfl, rfl⟩
  rw [findTask_updTask (fun u => { u with phase := .awaitClearRefresh e }) (fun u => rfl) id]
  have h2 : findTask { (processQueue s (some e) none) with store := clearAccessToken s.store } id
      = findTask (processQueue s (some e) none) id := rfl
  rw [h2, findTask_processQueue id, hft]
  simp [hid, hidnq]

theorem clear_stage {s1 : Sys} {id : Nat} {ℓ1 : ReqTask} {e : Err}
    (hft1 : findTask s1 id = some ℓ1) (hp1 : ℓ1.phase = .awaitClearRefresh e) :
    (∀ u ∈ (step s1 (.clearDone id)).tasks, u.id = id → u.phase = .rejected (.renewal e)) ∧
    (∀ u ∈ (step s1 (.clearDone id)).tasks, u.id ≠ id → u ∈ s1.tasks) ∧
    (step s1 (.clearDone id)).store.accessToken = s1.store.accessToken ∧
    (step s1 (.clearDone id)).store.refreshToken = none ∧
    (step s1 (.clearDone id)).isAuthenticated = s1.isAuthenticated ∧
    (step s1 (.clearDone id)).isRefreshing = false ∧
    (step s1 (.clearDone id)).failedQueue = s1.failedQueue := by
  rw [clear_eq hft1 hp1]
  refine ⟨?_, ?_, rfl, rfl, rfl, rfl, rfl⟩
  · intro u hu hd
    rcases mem_updTask hu with ⟨w, hw, rfl⟩
    by_cases hwd : w.id = id
    · rw [if_pos hwd]
    · rw [if_neg hwd] at hd ⊢
      exact absurd hd hwd
  · intro u hu hd
    rcases mem_updTask hu with ⟨w, hw, rfl⟩
    by_cases hwd : w.id = id
    · exfalso
      rw [if_pos hwd] at hd
      exact hd hwd
    · rw [if_neg hwd]
      exact hw

theorem lead_stage {s : Sys} {id : Nat} {t : ReqTask} {r1 : Token}
    (hft : findTask s id = some t) (hp : t.phase = .awaitGetRefresh)
    (hir : s.isRefreshing = false) (hrt : s.store.refreshToken = some r1) (hr1 : r1 ≠ "") :
    findTask (step s (.readDone id false)) id
      = some { t with retry := true, phase := .awaitPost r1 } ∧
    (step s (.readDone id false)).submittedLog = s.submittedLog ++ [r1] ∧
    (step s (.readDone id false)).store = s.store ∧
    (step s (.readDone id false)).failedQueue = s.failedQueue ∧
    (step s (.readDone id false)).isAuthenticated = s.isAuthenticated ∧
    (step s (.readDone id false)).isRefreshing = true := by
  obtain ⟨hmem, hid⟩ := findTask_mem hft
  rw [lead_eq hft hp hir hrt hr1]
  refine ⟨?_, rfl, rfl, rfl, rfl, rfl⟩
  have h2 : findTask { (updTask s id fun u => { u with retry := true, phase := .awaitPost r1 }) with
        isRefreshing := true, submittedLog := s.submittedLog ++ [r1] } id
      = findTask (updTask s id fun u => { u with retry := true, phase := .awaitPost r1 }) id := rfl
  rw [h2, findTask_updTask (fun u => { u with retry := true, phase := .awaitPost r1 })
      (fun u => rfl) id, hft]
  simp [hid]

theorem postok_stage {s : Sys} {id : Nat} {ℓ : ReqTask} {tok : Token} (d : RespData)
    (hft : findTask s id = some ℓ) (hp : ℓ.phase = .awaitPost tok) :
    findTask (step s (.postDone id (.ok d))) id = some { ℓ with phase := .awaitSetRefresh d } ∧
    (step s (.postDone id (.ok d))).store.accessToken = d.access ∧
    (step s (.postDone id (.ok d))).store.refreshToken = s.store.refreshToken ∧
    (step s (.postDone id (.ok d))).submittedLog = s.submittedLog ∧
    (step s (.postDone id (.ok d))).failedQueue = s.failedQueue ∧
    (step s (.postDone id (.ok d))).isRefreshing = s.isRefreshing ∧
    (step s (.postDone id (.ok d))).isAuthenticated = s.isAuthenticated := by
  obtain ⟨hmem, hid⟩ := findTask_mem hft
  rw [postok_eq hft hp]
  refine ⟨?_, rfl, rfl, rfl, rfl, rfl, rfl⟩
  have h2 : findTask (updTask { s with store := setAccessToken s.store d.access } id
        fun u => { u with phase := .awaitSetRefresh d }) id
      = findTask (updTask s id fun u => { u with phase := .awaitSetRefresh d }) id := rfl
  rw [h2, findTask_updTask (fun u => { u with phase := .awaitSetRefresh d }) (fun u => rfl) id, hft]
  simp [hid]

theorem commit_stage {s : Sys} (hI : Inv s) {id : Nat} {ℓ : ReqTask} {d : RespData}
    (hft : findTask s id = some ℓ) (hp : ℓ.phase = .awaitSetRefresh d) :
    (∀ u ∈ (step s (.setDone id none)).tasks, u.id = id →
        u.phase = .reissued ∧ u.auth = d.access) ∧
    (∀ u ∈ (step s (.setDone id none)).tasks, u.id ∈ s.failedQueue →
        (∀ tk, d.access = some tk → tk ≠ "" → u.phase = .reissued ∧ u.auth = some tk) ∧
        ((d.access = none ∨ d.access = some "") → u.phase = .waiting)) ∧
    (step s (.setDone id none)).store.refreshToken = d.renewal ∧
    (step s (.setDone id none)).store.accessToken = s.store.accessToken ∧
    (step s (.setDone id none)).failedQueue = [] ∧
    (step s (.setDone id none)).isRefreshing = false ∧
    (step s (.setDone id none)).submittedLog = s.submittedLog ∧
    (step s (.setDone id none)).isAuthenticated = s.isAuthenticated ∧
    (∀ u ∈ (step s (.setDone id none)).tasks, ∀ d', u.phase ≠ .awaitSetRefresh d') := by
  obtain ⟨hmem, hid⟩ := findTask_mem hft
  have hidnq : id ∉ s.failedQueue := leader_not_queued hI hft (by rw [hp]; simp)
  obtain ⟨hnd, href, huniq, hqw, hqb⟩ := hI
  rw [setok_eq hft hp]
  refine ⟨?_, ?_, rfl, rfl, rfl, rfl, rfl, rfl, ?_⟩
  · intro u hu hd
    rcases mem_updTask hu with ⟨w, hw, rfl⟩
    by_cases hwd : w.id = id
    · rw [if_pos hwd]
      rcases mem_processQueue hw with ⟨x, hx, rfl⟩
      by_cases hxq : x.id ∈ s.failedQueue
      · exfalso
        have hxq2 : x.id ∈ (updTask { s with store := setRefreshToken s.store d.renewal } id
            fun u => { u with auth := d.access }).failedQueue := hxq
        rw [if_pos hxq2] at hwd
        rw [completeWaiter_id] at hwd
        exact hidnq (hwd ▸ hxq)
      · have hxq2 : x.id ∉ (updTask { s with store := setRefreshToken s.store d.renewal } id
            fun u => { u with auth := d.access }).failedQueue := hxq
        rw [if_neg hxq2] at hwd ⊢
        rcases mem_updTask hx with ⟨v, hv, rfl⟩
        by_cases hvd : v.id = id
        · rw [if_pos hvd]
          exact ⟨rfl, rfl⟩
        · exfalso
          rw [if_neg hvd] at hwd
          exact hvd hwd
    · exfalso
      rw [if_neg hwd] at hd
      exact hwd hd
  · intro u hu hq
    rcases mem_updTask hu with ⟨w, hw, rfl⟩
    have huid : (if w.id = id then { w with phase := Phase.reissued } else w).id = w.id := by
      by_cases hwd : w.id = id <;> simp [hwd]
    rw [huid] at hq
    have hwd : w.id ≠ id := fun hc => hidnq (hc ▸ hq)
    rw [if_neg hwd]
    rcases mem_processQueue hw with ⟨x, hx, rfl⟩
    have hxid : (if x.id ∈ (updTask { s with store := setRefreshToken s.store d.renewal } id
          fun u => { u with auth := d.access }).failedQueue
        then completeWaiter none d.access x else x).id = x.id := by
      by_cases hxq : x.id ∈ s.failedQueue <;> simp [hxq, completeWaiter_id]
    rw [hxid] at hq hwd
    rcases mem_updTask hx with ⟨v, hv, rfl⟩
    have hvd : v.id ≠ id := by
      by_cases hc : v.id = id
      · rw [if_pos hc] at hq
        have hq' : v.id ∈ s.failedQueue := hq
        exact absurd (hc ▸ hq') hidnq
      · exact hc
    rw [if_neg hvd] at hq hwd ⊢
    have hq2 : v.id ∈ (updTask { s with store := setRefreshToken s.store d.renewal } id
        fun u => { u with auth := d.access }).failedQueue := hq
    rw [if_pos hq2]
    have hvw : v.phase = .waiting := hqw v hv hq
    constructor
    · intro tk htk hne
      rw [htk]
      simp [completeWaiter, hne]
    · intro hfalsy
      rcases hfalsy with hfa | hfa <;> rw [hfa]
      · simpa [completeWaiter] using hvw
      · simpa [completeWaiter] using hvw
  · intro u hu d' hphase
    rcases mem_updTask hu with ⟨w, hw, rfl⟩
    by_cases hwd : w.id = id
    · rw [if_pos hwd] at hphase
      simp at hphase
    · rw [if_neg hwd] at hphase
      rcases mem_processQueue hw with ⟨x, hx, rfl⟩
      by_cases hxq : x.id ∈ (updTask { s with store := setRefreshToken s.store d.renewal } id
          fun u => { u with auth := d.access }).failedQueue
      · rw [if_pos hxq] at hphase
        rcases completeWaiter_none d.access x with hcw | ⟨tk, _, _, hcw⟩
        · rw [hcw] at hphase
          rcases mem_updTask hx with ⟨v, hv, rfl⟩
          by_cases hvd : v.id = id
          · rw [if_pos hvd] at hxq
            have hq' : v.id ∈ s.failedQueue := hxq
            exact absurd (hvd ▸ hq') hidnq
          · rw [if_neg hvd] at hphase hxq
            have hq' : v.id ∈ s.failedQueue := hxq
            have hvw := hqw v hv hq'
            rw [hvw] at hphase
            simp at hphase
        · rw [hcw] at hphase
          simp at hphase
      · rw [if_neg hxq] at hphase hwd
        rcases mem_updTask hx with ⟨v, hv, rfl⟩
        by_cases hvd : v.id = id
        · rw [if_pos hvd] at hwd
          have hwd' : v.id ≠ id := hwd
          exact hwd' hvd
        · rw [if_neg hvd] at hphase
          have hv0 := huniq v hv ℓ hmem (by rw [hphase]; rfl) (by rw [hp]; rfl)
          exact absurd (by rw [hv0]; exact hid) hvd

/-! The claims. -/

/-- C8: when execute() receives an authorization failure on an unmarked
request and no renewal credential is available — the secure store holds
none, or the secure-store read throws and the catch in
tokenStorage.getRefreshToken turns the failure into null — the original
authorization failure is returned as-is (lines 52-54 of client.ts) and
the renewal endpoint is never contacted: the submitted log, the store,
the mutex and the queue are all untouched. -/
theorem C8_nothing_to_renew_with (s : Sys) (id : Nat) (fault : Bool) (t : ReqTask)
    (hft : findTask s id = some t) (hp : t.phase = .awaitGetRefresh)
    (habs : fault = true ∨ s.store.refreshToken = none) :
    findTask (step s (.readDone id fault)) id
      = some { t with phase := .rejected (.original t.err) } ∧
    (step s (.readDone id fault)).submittedLog = s.submittedLog ∧
    (step s (.readDone id fault)).store = s.store ∧
    (step s (.readDone id fault)).isRefreshing = s.isRefreshing ∧
    (step s (.readDone id fault)).failedQueue = s.failedQueue := by
  obtain ⟨hmem, hid⟩ := findTask_mem hft
  have hgr : getRefreshToken s.store fault = none := by
    rcases habs with hfa | hrt
    · simp [getRefreshToken, hfa]
    · by_cases hfa : fault <;> simp [getRefreshToken, hfa, hrt]
  have hstep : step s (.readDone id fault)
      = updTask s id fun u => { u with phase := .rejected (.original u.err) } := by
    simp [step, hft, hp, hgr]
  rw [hstep]
  refine ⟨?_, rfl, rfl, rfl, rfl⟩
  rw [findTask_updTask (fun u => { u with phase := .rejected (.original u.err) })
      (fun u => rfl) id, hft]
  simp [hid]

/-- C9: responses that are not authorization failures pass through
verbatim.  The success interceptor (line 42 of client.ts) is the
identity, and the error interceptor rejects with the very same error
object whenever error.response?.status is not 401 — including
transport-level failures where error.response is undefined (status
none) — without touching the renewal machinery: no token is submitted,
the store, mutex and queue are unchanged. -/
theorem C9_pass_through :
    (∀ (α : Type) (r : α), onResponseFulfilled r = r) ∧
    (∀ (s : Sys) (id : Nat) (e : AxErr),
      s.tasks.any (fun t => t.id == id) = false →
      e.status ≠ some 401 →
      (step s (.arrive id e)).tasks
        = s.tasks ++ [{ id := id, err := e, retry := false, auth := none,
                        phase := .rejected (.original e) }] ∧
      (step s (.arrive id e)).store = s.store ∧
      (step s (.arrive id e)).submittedLog = s.submittedLog ∧
      (step s (.arrive id e)).isRefreshing = s.isRefreshing ∧
      (step s (.arrive id e)).failedQueue = s.failedQueue) := by
  refine ⟨fun α r => rfl, ?_⟩
  intro s id e hfresh hs
  have hstep : step s (.arrive id e)
      = { s with tasks := s.tasks ++ [⟨id, e, false, none, .rejected (.original e)⟩] } := by
    simp [step, hfresh, hs]
  rw [hstep]
  exact ⟨rfl, rfl, rfl, rfl, rfl⟩

/-- C5: when the renewal POST fails with any error e (network error,
rejected credential, server error), every handle in failedQueue at that
moment is rejected with that same e, both the in-memory access token
and the persisted refresh token end up cleared, and the initiating
execute() call settles as rejected with the renewal error — a
RErr.renewal, never the original RErr.original authorization failure. -/
theorem C5_renewal_failure_path (s : Sys) (id : Nat) (ℓ : ReqTask) (tok : Token) (e : Err)
    (hI : Inv s) (hft : findTask s id = some ℓ) (hp : ℓ.phase = .awaitPost tok) :
    (∀ u ∈ (run s [.postDone id (.err e), .clearDone id]).tasks,
        u.id ∈ s.failedQueue → u.phase = .rejected (.renewal e)) ∧
    (∀ u ∈ (run s [.postDone id (.err e), .clearDone id]).tasks,
        u.id = id → u.phase = .rejected (.renewal e)) ∧
    (run s [.postDone id (.err e), .clearDone id]).store.accessToken = none ∧
    (run s [.postDone id (.err e), .clearDone id]).store.refreshToken = none ∧
    (∀ a : AxErr, (RErr.renewal e) ≠ RErr.original a) := by
  obtain ⟨hft1, hbr, hacc, hrt, hauth, hfq⟩ := posterr_stage hI e hft hp
  obtain ⟨hc1, hc2, hcacc, hcrt, hcauth, hcref, hcfq⟩ := clear_stage hft1 rfl
  have hrun : run s [.postDone id (.err e), .clearDone id]
      = step (step s (.postDone id (.err e))) (.clearDone id) := rfl
  rw [hrun]
  refine ⟨?_, hc1, ?_, hcrt, fun a h => RErr.noConfusion h⟩
  · intro u hu hq
    by_cases hud : u.id = id
    · exact hc1 u hu hud
    · exact hbr u (hc2 u hu hud) hq
  · rw [hcacc, hacc]

/-- C3 as amended: after three concurrent calls join one renewal cycle
and the shared renewal call is rejected, all of them are rejected with
the same renewal error and both stored credentials report absent — but
the AuthProvider flag isAuthenticated is untouched by the renewal path
(client.ts never calls into the auth context), so it keeps its prior
value instead of becoming false. -/
theorem C3_amended (s : Sys) (id : Nat) (ℓ : ReqTask) (tok : Token) (e : Err)
    (hI : Inv s) (hft : findTask s id = some ℓ) (hp : ℓ.phase = .awaitPost tok) :
    (∀ u ∈ (run s [.postDone id (.err e), .clearDone id]).tasks,
        u.id ∈ s.failedQueue → u.phase = .rejected (.renewal e)) ∧
    (∀ u ∈ (run s [.postDone id (.err e), .clearDone id]).tasks,
        u.id = id → u.phase = .rejected (.renewal e)) ∧
    getAccessToken (run s [.postDone id (.err e), .clearDone id]).store = none ∧
    getRefreshToken (run s [.postDone id (.err e), .clearDone id]).store false = none ∧
    (run s [.postDone id (.err e), .clearDone id]).isAuthenticated = s.isAuthenticated := by
  obtain ⟨hft1, hbr, hacc, hrt, hauth, hfq⟩ := posterr_stage hI e hft hp
  obtain ⟨hc1, hc2, hcacc, hcrt, hcauth, hcref, hcfq⟩ := clear_stage hft1 rfl
  have hrun : run s [.postDone id (.err e), .clearDone id]
      = step (step s (.postDone id (.err e))) (.clearDone id) := rfl
  rw [hrun]
  refine ⟨?_, hc1, ?_, ?_, ?_⟩
  · intro u hu hq
    by_cases hud : u.id = id
    · exact hc1 u hu hud
    · exact hbr u (hc2 u hu hud) hq
  · show (step (step s (.postDone id (.err e))) (.clearDone id)).store.accessToken = none
    rw [hcacc, hacc]
  · show getRefreshToken (step (step s (.postDone id (.err e))) (.clearDone id)).store false = none
    simp [getRefreshToken, hcrt]
  · rw [hcauth, hauth]

/-- C10: if the renewal POST succeeds but persisting the rotated
renewal credential throws (setRefreshToken rejects with a storage
error e), the same catch block as a network failure runs: every queued
handle is rejected with e (none is ever resolved with the new access
credential), both stored credentials end up cleared, and the initiating
execute() call rejects with e. -/
theorem C10_storage_failure_degrades_to_failure (s : Sys) (id : Nat) (ℓ : ReqTask)
    (d : RespData) (e : Err)
    (hI : Inv s) (hft : findTask s id = some ℓ) (hp : ℓ.phase = .awaitSetRefresh d) :
    (∀ u ∈ (run s [.setDone id (some e), .clearDone id]).tasks,
        u.id ∈ s.failedQueue → u.phase = .rejected (.renewal e)) ∧
    (∀ u ∈ (run s [.setDone id (some e), .clearDone id]).tasks,
        u.id ∈ s.failedQueue → u.phase ≠ .reissued) ∧
    (∀ u ∈ (run s [.setDone id (some e), .clearDone id]).tasks,
        u.id = id → u.phase = .rejected (.renewal e)) ∧
    (run s [.setDone id (some e), .clearDone id]).store.accessToken = none ∧
    (run s [.setDone id (some e), .clearDone id]).store.refreshToken = none := by
  obtain ⟨hft1, hbr, hacc, hrt, hauth, hfq⟩ := seterr_stage hI e hft hp
  obtain ⟨hc1, hc2, hcacc, hcrt, hcauth, hcref, hcfq⟩ := clear_stage hft1 rfl
  have hrun : run s [.setDone id (some e), .clearDone id]
      = step (step s (.setDone id (some e))) (.clearDone id) := rfl
  rw [hrun]
  have hrej : ∀ u ∈ (step (step s (.setDone id (some e))) (.clearDone id)).tasks,
      u.id ∈ s.failedQueue → u.phase = .rejected (.renewal e) := by
    intro u hu hq
    by_cases hud : u.id = id
    · exact hc1 u hu hud
    · exact hbr u (hc2 u hu hud) hq
  refine ⟨hrej, ?_, hc1, ?_, hcrt⟩
  · intro u hu hq
    rw [hrej u hu hq]
    simp
  · rw [hcacc, hacc]

/-- C1 as amended: (1) at most one renewal POST is ever in flight, in
every state reachable from a quiescent initial state by any schedule;
(2) when the in-flight renewal settles with an error, every caller
queued at that moment is rejected with that same error in one pass;
(3) when it settles successfully with a non-empty access token, every
caller queued at that moment is resolved with that same token.  A
caller whose getRefreshToken read resolves only after the cycle has
settled does not join it and may start a fresh cycle, so the original
claim that N concurrent 401s always produce exactly one endpoint
invocation observed by all N does not hold (see the counterexample). -/
theorem C1_amended :
    (∀ (acc rt : Option Token) (auth : Bool) (evs : List Ev),
        AtMostOnePost (run (initSys acc rt auth) evs)) ∧
    (∀ (s : Sys) (id : Nat) (ℓ : ReqTask) (tok : Token) (e : Err),
        Inv s → findTask s id = some ℓ → ℓ.phase = .awaitPost tok →
        ∀ u ∈ (step s (.postDone id (.err e))).tasks, u.id ∈ s.failedQueue →
          u.phase = .rejected (.renewal e)) ∧
    (∀ (s : Sys) (id : Nat) (ℓ : ReqTask) (d : RespData) (tk : Token),
        Inv s → findTask s id = some ℓ → ℓ.phase = .awaitSetRefresh d →
        d.access = some tk → tk ≠ "" →
        ∀ u ∈ (step s (.setDone id none)).tasks, u.id ∈ s.failedQueue →
          u.phase = .reissued ∧ u.auth = some tk) := by
  refine ⟨?_, ?_, ?_⟩
  · intro acc rt auth evs
    exact atMostOnePost_of_inv (inv_run (inv_initSys acc rt auth) evs)
  · intro s id ℓ tok e hI hft hp u hu hq
    exact (posterr_stage hI e hft hp).2.1 u hu hq
  · intro s id ℓ d tk hI hft hp htk hne u hu hq
    exact ((commit_stage hI hft hp).2.1 u hu hq).1 tk htk hne

/-- C6 as amended: when a renewal cycle settles, each handle queued in
failedQueue at that moment is completed at most once, in one pass of
processQueue: exactly once (rejected) when the cycle settles with an
error, exactly once (resolved) when it settles successfully with a
non-empty access token — but completed zero times when the cycle
settles successfully with a malformed body whose access token is
missing or empty, because processQueue matches neither its error branch
nor its truthy-token branch and the handle is dropped from the emptied
queue (see the counterexample). -/
theorem C6_waiter_completion :
    (∀ (s : Sys) (id : Nat) (ℓ : ReqTask) (tok : Token) (e : Err),
        Inv s → findTask s id = some ℓ → ℓ.phase = .awaitPost tok →
        ∀ u ∈ (step s (.postDone id (.err e))).tasks, u.id ∈ s.failedQueue →
          u.phase = .rejected (.renewal e)) ∧
    (∀ (s : Sys) (id : Nat) (ℓ : ReqTask) (d : RespData) (tk : Token),
        Inv s → findTask s id = some ℓ → ℓ.phase = .awaitSetRefresh d →
        d.access = some tk → tk ≠ "" →
        ∀ u ∈ (step s (.setDone id none)).tasks, u.id ∈ s.failedQueue →
          u.phase = .reissued ∧ u.auth = some tk) ∧
    (∀ (s : Sys) (id : Nat) (ℓ : ReqTask) (d : RespData),
        Inv s → findTask s id = some ℓ → ℓ.phase = .awaitSetRefresh d →
        (d.access = none ∨ d.access = some "") →
        (∀ u ∈ (step s (.setDone id none)).tasks, u.id ∈ s.failedQueue →
          u.phase = .waiting) ∧
        (step s (.setDone id none)).failedQueue = [] ∧
        (step s (.setDone id none)).isRefreshing = false) := by
  refine ⟨?_, ?_, ?_⟩
  · intro s id ℓ tok e hI hft hp u hu hq
    exact (posterr_stage hI e hft hp).2.1 u hu hq
  · intro s id ℓ d tk hI hft hp htk hne u hu hq
    exact ((commit_stage hI hft hp).2.1 u hu hq).1 tk htk hne
  · intro s id ℓ d hI hft hp hfalsy
    obtain ⟨hc1, hc2, hrt, hacc, hfq, hir, hsub, hauth, hnopend⟩ := commit_stage hI hft hp
    exact ⟨fun u hu hq => (hc2 u hu hq).2 hfalsy, hfq, hir⟩

/-- C4: every renewal network call submits exactly the renewal
credential held by the store at the moment the call is issued (the
submitted log only ever grows by the currently stored token, at the
single-flight leader entry of lines 69-73), and along any schedule
whose refresh responses honour the rotation contract of section 6
(each successful response carries a never-before-submitted renewal
token), no credential is ever submitted twice: the submitted log stays
duplicate-free. -/
theorem C4_renewal_single_use :
    (∀ (s : Sys) (ev : Ev),
        (step s ev).submittedLog = s.submittedLog ∨
        ∃ id tk, ev = .readDone id false ∧ s.store.refreshToken = some tk ∧
          (step s ev).submittedLog = s.submittedLog ++ [tk]) ∧
    (∀ (acc rt : Option Token) (auth : Bool) (evs : List Ev),
        goodFrom (initSys acc rt auth) evs = true →
        (run (initSys acc rt auth) evs).submittedLog.Nodup) := by
  constructor
  · intro s ev
    cases ev with
    | arrive id e =>
      left
      by_cases hfresh : s.tasks.any (fun t => t.id == id) = true
      · simp [step, hfresh]
      · have hf : s.tasks.any (fun t => t.id == id) = false := by
          revert hfresh
          cases s.tasks.any (fun t => t.id == id) <;> simp
        by_cases hs : e.status = some 401 <;> simp [step, hf, hs]
    | readDone id fault =>
      cases hft : findTask s id with
      | none => left; simp [step, hft]
      | some t₀ =>
        cases hp : t₀.phase
        case awaitGetRefresh =>
          cases hgr : getRefreshToken s.store fault with
          | none => left; simp [step, hft, hp, hgr]
          | some tk =>
            by_cases htk : tk = ""
            · left; simp [step, hft, hp, hgr, htk]
            · by_cases hir : s.isRefreshing = true
              · left; simp [step, hft, hp, hgr, htk, hir]
              · have hir' : s.isRefreshing = false := by
                  revert hir
                  cases s.isRefreshing <;> simp
                right
                have hfa : fault = false := by
                  by_cases hc : fault
                  · simp [getRefreshToken, hc] at hgr
                  · simpa using hc
                have hrt : s.store.refreshToken = some tk := by
                  rw [hfa] at hgr
                  simpa [getRefreshToken] using hgr
                refine ⟨id, tk, by rw [hfa], hrt, ?_⟩
                simp [step, hft, hp, hgr, htk, hir']
        all_goals left
        all_goals simp [step, hft, hp]
    | postDone id r =>
      left
      cases hft : findTask s id with
      | none => simp [step, hft]
      | some t₀ =>
        cases hp : t₀.phase
        case awaitPost tok => cases r <;> simp [step, hft, hp]
        all_goals simp [step, hft, hp]
    | setDone id res =>
      left
      cases hft : findTask s id with
      | none => simp [step, hft]
      | some t₀ =>
        cases hp : t₀.phase
        case awaitSetRefresh d => cases res <;> simp [step, hft, hp]
        all_goals simp [step, hft, hp]
    | clearDone id =>
      left
      cases hft : findTask s id with
      | none => simp [step, hft]
      | some t₀ =>
        cases hp : t₀.phase
        case awaitClearRefresh e => simp [step, hft, hp]
        all_goals simp [step, hft, hp]
    | retryResponse id r =>
      left
      cases hft : findTask s id with
      | none => simp [step, hft]
      | some t₀ =>
        cases hp : t₀.phase
        case reissued =>
          cases r with
          | none => simp [step, hft, hp]
          | some e2 =>
            by_cases hc : e2.status = some 401 ∧ t₀.retry = false <;>
              simp [step, hft, hp, hc]
        all_goals simp [step, hft, hp]
  · intro acc rt auth evs hg
    refine (rot_run (inv_initSys acc rt auth) ⟨?_, ?_, ?_⟩ hg).1
    · simp [initSys]
    · intro _ tk h
      simp [initSys]
    · intro t ht d hph
      simp [initSys] at ht

/-- C7: rotation on successful renewal.  From an idle state storing
renewal credential r1, an unmarked request that received an
authorization failure leads a renewal cycle: the endpoint is called
with exactly r1 (the submitted log grows by r1 and nothing else), and
when the server answers with the pair (a2, r2) and the persist
succeeds, a2 becomes the in-memory access token, r2 the persisted
renewal token, the request is re-issued carrying a2 with its RetryMark
set — and along every continuation whose refresh responses honour the
rotation contract, getRenewal never returns r1 again. -/
theorem C7_rotation_on_success (s : Sys) (id : Nat) (t : ReqTask) (r1 a2 r2 : Token)
    (hI : Inv s) (hft : findTask s id = some t) (hp : t.phase = .awaitGetRefresh)
    (hir : s.isRefreshing = false) (hrt : s.store.refreshToken = some r1)
    (hr1 : r1 ≠ "") (hrot : r2 ≠ r1) :
    (run s [.readDone id false, .postDone id (.ok ⟨some a2, some r2⟩), .setDone id none]).submittedLog
      = s.submittedLog ++ [r1] ∧
    (run s [.readDone id false, .postDone id (.ok ⟨some a2, some r2⟩), .setDone id none]).store.accessToken
      = some a2 ∧
    getRefreshToken (run s [.readDone id false, .postDone id (.ok ⟨some a2, some r2⟩), .setDone id none]).store false
      = some r2 ∧
    (∀ u ∈ (run s [.readDone id false, .postDone id (.ok ⟨some a2, some r2⟩), .setDone id none]).tasks,
        u.id = id → u.phase = .reissued ∧ u.auth = some a2) ∧
    (∀ evs, goodFrom (run s [.readDone id false, .postDone id (.ok ⟨some a2, some r2⟩), .setDone id none]) evs = true →
        getRefreshToken (run (run s [.readDone id false, .postDone id (.ok ⟨some a2, some r2⟩), .setDone id none]) evs).store false
          ≠ some r1) := by
  obtain ⟨hft1, hsub1, hst1, hfq1, hau1, hir1⟩ := lead_stage hft hp hir hrt hr1
  have hI1 : Inv (step s (.readDone id false)) := inv_step hI _
  obtain ⟨hft2, hacc2, hrt2, hsub2, hfq2, hir2, hau2⟩ :=
    postok_stage ⟨some a2, some r2⟩ hft1 rfl
  have hI2 : Inv (step (step s (.readDone id false)) (.postDone id (.ok ⟨some a2, some r2⟩))) :=
    inv_step hI1 _
  obtain ⟨hld3, hwt3, hrt3, hacc3, hfq3, hir3, hsub3, hau3, hnp3⟩ := commit_stage hI2 hft2 rfl
  have hrun : run s [.readDone id false, .postDone id (.ok ⟨some a2, some r2⟩), .setDone id none]
      = step (step (step s (.readDone id false)) (.postDone id (.ok ⟨some a2, some r2⟩)))
          (.setDone id none) := rfl
  rw [hrun]
  have hsubfin : (step (step (step s (.readDone id false)) (.postDone id (.ok ⟨some a2, some r2⟩)))
      (.setDone id none)).submittedLog = s.submittedLog ++ [r1] := by
    rw [hsub3, hsub2, hsub1]
  have hrtfin : (step (step (step s (.readDone id false)) (.postDone id (.ok ⟨some a2, some r2⟩)))
      (.setDone id none)).store.refreshToken = some r2 := hrt3
  refine ⟨hsubfin, ?_, ?_, ?_, ?_⟩
  · rw [hacc3, hacc2]
  · simp [getRefreshToken, hrtfin]
  · intro u hu hd
    have hx := hld3 u hu hd
    exact ⟨hx.1, hx.2⟩
  · intro evs hg
    have hcons : Consumed r1 (step (step (step s (.readDone id false))
        (.postDone id (.ok ⟨some a2, some r2⟩))) (.setDone id none)) := by
      refine ⟨?_, ?_, ?_⟩
      · rw [hsubfin]
        exact List.mem_append_right _ (List.mem_singleton_self r1)
      · rw [hrtfin]
        intro hc
        have : r2 = r1 := by injection hc
        exact hrot this
      · intro u hu d' hph
        exact absurd hph (hnp3 u hu d')
    have hrest := (consumed_run hcons hg).2.1
    simp [getRefreshToken]
    exact fun hc => hrest hc

/-- C1 counterexample: two concurrent execute() calls both receive an
authorization failure while no renewal is in flight (after both arrive,
isRefreshing is false and no task is suspended on the POST).  Caller 1
reads the credential, leads a cycle with r1 and the cycle settles
successfully — but caller 2's getRefreshToken read resolves only
afterwards, so caller 2 finds isRefreshing false and leads a second
cycle with r2, which the server rejects.  The renewal endpoint is
invoked twice for the two concurrent callers
(submittedLog = [r1, r2]), and the two callers observe different
outcomes: caller 1 is resolved with a2 while caller 2 is rejected with
the renewal error.  This falsifies the claim that the endpoint is
invoked exactly once and that all N callers observe that same cycle's
outcome. -/
theorem C1_counterexample :
    (run (initSys (some "a1") (some "r1") true)
        [.arrive 1 ⟨some 401, "f1"⟩, .arrive 2 ⟨some 401, "f2"⟩]).isRefreshing = false ∧
    (run (initSys (some "a1") (some "r1") true)
        [.arrive 1 ⟨some 401, "f1"⟩, .arrive 2 ⟨some 401, "f2"⟩]).tasks.all
      (fun t => inFlightPost t.phase = false) = true ∧
    (run (initSys (some "a1") (some "r1") true)
        [.arrive 1 ⟨some 401, "f1"⟩, .arrive 2 ⟨some 401, "f2"⟩,
         .readDone 1 false, .postDone 1 (.ok ⟨some "a2", some "r2"⟩), .setDone 1 none,
         .readDone 2 false, .postDone 2 (.err "RenewalRejected"), .clearDone 2]).submittedLog
      = ["r1", "r2"] ∧
    findTask (run (initSys (some "a1") (some "r1") true)
        [.arrive 1 ⟨some 401, "f1"⟩, .arrive 2 ⟨some 401, "f2"⟩,
         .readDone 1 false, .postDone 1 (.ok ⟨some "a2", some "r2"⟩), .setDone 1 none,
         .readDone 2 false, .postDone 2 (.err "RenewalRejected"), .clearDone 2]) 1
      = some ⟨1, ⟨some 401, "f1"⟩, true, some "a2", .reissued⟩ ∧
    findTask (run (initSys (some "a1") (some "r1") true)
        [.arrive 1 ⟨some 401, "f1"⟩, .arrive 2 ⟨some 401, "f2"⟩,
         .readDone 1 false, .postDone 1 (.ok ⟨some "a2", some "r2"⟩), .setDone 1 none,
         .readDone 2 false, .postDone 2 (.err "RenewalRejected"), .clearDone 2]) 2
      = some ⟨2, ⟨some 401, "f2"⟩, true, none, .rejected (.renewal "RenewalRejected")⟩ := by
  decide

/-- C2: the code does not set the RetryMark on queued requests.  A
request queued behind an in-flight renewal is re-issued by processQueue
with the new access token but with its `_retry` flag still unset (the
assignment on line 69 of client.ts runs only on the leader path), so
when the re-issued request receives a second authorization failure it
re-enters the renewal path — reading the renewal credential and
starting another renewal, so that two tokens end up submitted for the
one request — instead of being returned as-is.  The leader request, by
contrast, carries the mark and its second failure is terminal. -/
theorem C2_code_bug :
    findTask (run (initSys (some "a1") (some "r1") true)
        [.arrive 1 ⟨some 401, "f1"⟩, .arrive 2 ⟨some 401, "f2"⟩,
         .readDone 1 false, .readDone 2 false,
         .postDone 1 (.ok ⟨some "a2", some "r2"⟩), .setDone 1 none]) 2
      = some ⟨2, ⟨some 401, "f2"⟩, false, some "a2", .reissued⟩ ∧
    findTask (run (initSys (some "a1") (some "r1") true)
        [.arrive 1 ⟨some 401, "f1"⟩, .arrive 2 ⟨some 401, "f2"⟩,
         .readDone 1 false, .readDone 2 false,
         .postDone 1 (.ok ⟨some "a2", some "r2"⟩), .setDone 1 none,
         .retryResponse 2 (some ⟨some 401, "f3"⟩)]) 2
      = some ⟨2, ⟨some 401, "f3"⟩, false, some "a2", .awaitGetRefresh⟩ ∧
    (run (initSys (some "a1") (some "r1") true)
        [.arrive 1 ⟨some 401, "f1"⟩, .arrive 2 ⟨some 401, "f2"⟩,
         .readDone 1 false, .readDone 2 false,
         .postDone 1 (.ok ⟨some "a2", some "r2"⟩), .setDone 1 none,
         .retryResponse 2 (some ⟨some 401, "f3"⟩), .readDone 2 false]).submittedLog
      = ["r1", "r2"] ∧
    findTask (run (initSys (some "a1") (some "r1") true)
        [.arrive 1 ⟨some 401, "f1"⟩, .arrive 2 ⟨some 401, "f2"⟩,
         .readDone 1 false, .readDone 2 false,
         .postDone 1 (.ok ⟨some "a2", some "r2"⟩), .setDone 1 none,
         .retryResponse 1 (some ⟨some 401, "f4"⟩)]) 1
      = some ⟨1, ⟨some 401, "f4"⟩, true, some "a2",
          .rejected (.original ⟨some 401, "f4"⟩)⟩ := by
  decide

/-- C3 counterexample: from a logged-in state (AuthProvider.login has
committed the tokens and set isAuthenticated), three concurrent
execute() calls all fail authorization, share one renewal cycle, and
the renewal is rejected.  All three are rejected with the same renewal
error and both getAccessToken and getRefreshToken report absent — but
isAuthenticated is still true, not false as the claim states: nothing
in the refresh-failure branch of client.ts updates the auth context. -/
theorem C3_counterexample :
    findTask (run (loginSuccess (initSys none none false) ⟨"a1", "r1"⟩)
        [.arrive 1 ⟨some 401, "f1"⟩, .arrive 2 ⟨some 401, "f2"⟩, .arrive 3 ⟨some 401, "f3"⟩,
         .readDone 1 false, .readDone 2 false, .readDone 3 false,
         .postDone 1 (.err "RenewalRejected"), .clearDone 1]) 1
      = some ⟨1, ⟨some 401, "f1"⟩, true, none, .rejected (.renewal "RenewalRejected")⟩ ∧
    findTask (run (loginSuccess (initSys none none false) ⟨"a1", "r1"⟩)
        [.arrive 1 ⟨some 401, "f1"⟩, .arrive 2 ⟨some 401, "f2"⟩, .arrive 3 ⟨some 401, "f3"⟩,
         .readDone 1 false, .readDone 2 false, .readDone 3 false,
         .postDone 1 (.err "RenewalRejected"), .clearDone 1]) 2
      = some ⟨2, ⟨some 401, "f2"⟩, false, none, .rejected (.renewal "RenewalRejected")⟩ ∧
    findTask (run (loginSuccess (initSys none none false) ⟨"a1", "r1"⟩)
        [.arrive 1 ⟨some 401, "f1"⟩, .arrive 2 ⟨some 401, "f2"⟩, .arrive 3 ⟨some 401, "f3"⟩,
         .readDone 1 false, .readDone 2 false, .readDone 3 false,
         .postDone 1 (.err "RenewalRejected"), .clearDone 1]) 3
      = some ⟨3, ⟨some 401, "f3"⟩, false, none, .rejected (.renewal "RenewalRejected")⟩ ∧
    getAccessToken (run (loginSuccess (initSys none none false) ⟨"a1", "r1"⟩)
        [.arrive 1 ⟨some 401, "f1"⟩, .arrive 2 ⟨some 401, "f2"⟩, .arrive 3 ⟨some 401, "f3"⟩,
         .readDone 1 false, .readDone 2 false, .readDone 3 false,
         .postDone 1 (.err "RenewalRejected"), .clearDone 1]).store = none ∧
    getRefreshToken (run (loginSuccess (initSys none none false) ⟨"a1", "r1"⟩)
        [.arrive 1 ⟨some 401, "f1"⟩, .arrive 2 ⟨some 401, "f2"⟩, .arrive 3 ⟨some 401, "f3"⟩,
         .readDone 1 false, .readDone 2 false, .readDone 3 false,
         .postDone 1 (.err "RenewalRejected"), .clearDone 1]).store false = none ∧
    (run (loginSuccess (initSys none none false) ⟨"a1", "r1"⟩)
        [.arrive 1 ⟨some 401, "f1"⟩, .arrive 2 ⟨some 401, "f2"⟩, .arrive 3 ⟨some 401, "f3"⟩,
         .readDone 1 false, .readDone 2 false, .readDone 3 false,
         .postDone 1 (.err "RenewalRejected"), .clearDone 1]).isAuthenticated = true := by
  decide

/-- C6 counterexample: the renewal POST succeeds but the response body
is malformed — its access token is the empty string.  The destructuring
on line 77 of client.ts does not throw, the leader commits and
re-issues, and processQueue is called with (null, "").  The empty token
matches neither the error branch nor the truthy-token branch of
processQueue, so the queued waiter is completed zero times: after the
cycle has fully settled (the queue is drained to empty and isRefreshing
is false) the waiter is still suspended in the waiting phase, its
promise forever pending.  This falsifies "completed exactly once ...
never zero times, for any server response including a malformed one". -/
theorem C6_counterexample :
    findTask (run (initSys (some "a1") (some "r1") true)
        [.arrive 1 ⟨some 401, "f1"⟩, .arrive 2 ⟨some 401, "f2"⟩,
         .readDone 1 false, .readDone 2 false,
         .postDone 1 (.ok ⟨some "", some "r2"⟩), .setDone 1 none]) 2
      = some ⟨2, ⟨some 401, "f2"⟩, false, none, .waiting⟩ ∧
    (run (initSys (some "a1") (some "r1") true)
        [.arrive 1 ⟨some 401, "f1"⟩, .arrive 2 ⟨some 401, "f2"⟩,
         .readDone 1 false, .readDone 2 false,
         .postDone 1 (.ok ⟨some "", some "r2"⟩), .setDone 1 none]).failedQueue = [] ∧
    (run (initSys (some "a1") (some "r1") true)
        [.arrive 1 ⟨some 401, "f1"⟩, .arrive 2 ⟨some 401, "f2"⟩,
         .readDone 1 false, .readDone 2 false,
         .postDone 1 (.ok ⟨some "", some "r2"⟩), .setDone 1 none]).isRefreshing = false ∧
    findTask (run (initSys (some "a1") (some "r1") true)
        [.arrive 1 ⟨some 401, "f1"⟩, .arrive 2 ⟨some 401, "f2"⟩,
         .readDone 1 false, .readDone 2 false,
         .postDone 1 (.ok ⟨some "", some "r2"⟩), .setDone 1 none]) 1
      = some ⟨1, ⟨some 401, "f1"⟩, true, some "", .reissued⟩ := by
  decide

/-- Witness for C1: the amended theorem applied at concrete states — a
reachable two-caller state with one leader and one queued waiter. -/
theorem C1_witness :
    AtMostOnePost (run (initSys (some "a1") (some "r1") true)
      [.arrive 1 ⟨some 401, "f1"⟩, .arrive 2 ⟨some 401, "f2"⟩,
       .readDone 1 false, .readDone 2 false]) ∧
    (⟨2, ⟨some 401, "f2"⟩, false, none, .rejected (.renewal "boom")⟩ : ReqTask).phase
      = .rejected (.renewal "boom") ∧
    (⟨2, ⟨some 401, "f2"⟩, false, some "a2", .reissued⟩ : ReqTask).phase = .reissued := by
  refine ⟨C1_amended.1 (some "a1") (some "r1") true _, ?_, ?_⟩
  · exact C1_amended.2.1
      (run (initSys (some "a1") (some "r1") true)
        [.arrive 1 ⟨some 401, "f1"⟩, .arrive 2 ⟨some 401, "f2"⟩,
         .readDone 1 false, .readDone 2 false])
      1 ⟨1, ⟨some 401, "f1"⟩, true, none, .awaitPost "r1"⟩ "r1" "boom"
      (by decide) (by decide) rfl
      ⟨2, ⟨some 401, "f2"⟩, false, none, .rejected (.renewal "boom")⟩ (by decide) (by decide)
  · exact (C1_amended.2.2
      (run (initSys (some "a1") (some "r1") true)
        [.arrive 1 ⟨some 401, "f1"⟩, .arrive 2 ⟨some 401, "f2"⟩,
         .readDone 1 false, .readDone 2 false,
         .postDone 1 (.ok ⟨some "a2", some "r2"⟩)])
      1 ⟨1, ⟨some 401, "f1"⟩, true, none, .awaitSetRefresh ⟨some "a2", some "r2"⟩⟩
      ⟨some "a2", some "r2"⟩ "a2"
      (by decide) (by decide) rfl rfl (by decide)
      ⟨2, ⟨some 401, "f2"⟩, false, some "a2", .reissued⟩ (by decide) (by decide)).1

/-- Witness for C3 as amended, at the three-caller rejected-renewal
scenario. -/
theorem C3_witness :
    getAccessToken (run (run (loginSuccess (initSys none none false) ⟨"a1", "r1"⟩)
        [.arrive 1 ⟨some 401, "f1"⟩, .arrive 2 ⟨some 401, "f2"⟩, .arrive 3 ⟨some 401, "f3"⟩,
         .readDone 1 false, .readDone 2 false, .readDone 3 false])
      [.postDone 1 (.err "RenewalRejected"), .clearDone 1]).store = none ∧
    getRefreshToken (run (run (loginSuccess (initSys none none false) ⟨"a1", "r1"⟩)
        [.arrive 1 ⟨some 401, "f1"⟩, .arrive 2 ⟨some 401, "f2"⟩, .arrive 3 ⟨some 401, "f3"⟩,
         .readDone 1 false, .readDone 2 false, .readDone 3 false])
      [.postDone 1 (.err "RenewalRejected"), .clearDone 1]).store false = none ∧
    (run (run (loginSuccess (initSys none none false) ⟨"a1", "r1"⟩)
        [.arrive 1 ⟨some 401, "f1"⟩, .arrive 2 ⟨some 401, "f2"⟩, .arrive 3 ⟨some 401, "f3"⟩,
         .readDone 1 false, .readDone 2 false, .readDone 3 false])
      [.postDone 1 (.err "RenewalRejected"), .clearDone 1]).isAuthenticated = true := by
  have h := C3_amended
    (run (loginSuccess (initSys none none false) ⟨"a1", "r1"⟩)
      [.arrive 1 ⟨some 401, "f1"⟩, .arrive 2 ⟨some 401, "f2"⟩, .arrive 3 ⟨some 401, "f3"⟩,
       .readDone 1 false, .readDone 2 false, .readDone 3 false])
    1 ⟨1, ⟨some 401, "f1"⟩, true, none, .awaitPost "r1"⟩ "r1" "RenewalRejected"
    (by decide) (by decide) rfl
  refine ⟨h.2.2.1, h.2.2.2.1, ?_⟩
  rw [h.2.2.2.2]
  decide

/-- Witness for C4: a rotating two-cycle schedule yields a
duplicate-free submitted log. -/
theorem C4_witness :
    (run (initSys (some "a1") (some "r1") true)
      [.arrive 1 ⟨some 401, "f1"⟩, .arrive 2 ⟨some 401, "f2"⟩,
       .readDone 1 false, .postDone 1 (.ok ⟨some "a2", some "r2"⟩), .setDone 1 none,
       .readDone 2 false, .postDone 2 (.err "RenewalRejected"),
       .clearDone 2]).submittedLog.Nodup :=
  C4_renewal_single_use.2 (some "a1") (some "r1") true _ (by decide)

/-- Witness for C5, at the leader-plus-one-waiter state with a network
error on the renewal POST. -/
theorem C5_witness :
    (run (run (initSys (some "a1") (some "r1") true)
        [.arrive 1 ⟨some 401, "f1"⟩, .arrive 2 ⟨some 401, "f2"⟩,
         .readDone 1 false, .readDone 2 false])
      [.postDone 1 (.err "NetworkError"), .clearDone 1]).store.accessToken = none ∧
    (run (run (initSys (some "a1") (some "r1") true)
        [.arrive 1 ⟨some 401, "f1"⟩, .arrive 2 ⟨some 401, "f2"⟩,
         .readDone 1 false, .readDone 2 false])
      [.postDone 1 (.err "NetworkError"), .clearDone 1]).store.refreshToken = none ∧
    (⟨2, ⟨some 401, "f2"⟩, false, none, .rejected (.renewal "NetworkError")⟩ : ReqTask).phase
      = .rejected (.renewal "NetworkError") := by
  have h := C5_renewal_failure_path
    (run (initSys (some "a1") (some "r1") true)
      [.arrive 1 ⟨some 401, "f1"⟩, .arrive 2 ⟨some 401, "f2"⟩,
       .readDone 1 false, .readDone 2 false])
    1 ⟨1, ⟨some 401, "f1"⟩, true, none, .awaitPost "r1"⟩ "r1" "NetworkError"
    (by decide) (by decide) rfl
  exact ⟨h.2.2.1, h.2.2.2.1,
    h.1 ⟨2, ⟨some 401, "f2"⟩, false, none, .rejected (.renewal "NetworkError")⟩
      (by decide) (by decide)⟩

/-- Witness for C6 as amended, at a commit whose response body carries
an empty access token. -/
theorem C6_witness :
    (step (run (initSys (some "a1") (some "r1") true)
        [.arrive 1 ⟨some 401, "f1"⟩, .arrive 2 ⟨some 401, "f2"⟩,
         .readDone 1 false, .readDone 2 false,
         .postDone 1 (.ok ⟨some "", some "r2"⟩)])
      (.setDone 1 none)).failedQueue = [] ∧
    (step (run (initSys (some "a1") (some "r1") true)
        [.arrive 1 ⟨some 401, "f1"⟩, .arrive 2 ⟨some 401, "f2"⟩,
         .readDone 1 false, .readDone 2 false,
         .postDone 1 (.ok ⟨some "", some "r2"⟩)])
      (.setDone 1 none)).isRefreshing = false ∧
    (⟨2, ⟨some 401, "f2"⟩, false, none, .waiting⟩ : ReqTask).phase = .waiting := by
  have h := C6_waiter_completion.2.2
    (run (initSys (some "a1") (some "r1") true)
      [.arrive 1 ⟨some 401, "f1"⟩, .arrive 2 ⟨some 401, "f2"⟩,
       .readDone 1 false, .readDone 2 false,
       .postDone 1 (.ok ⟨some "", some "r2"⟩)])
    1 ⟨1, ⟨some 401, "f1"⟩, true, none, .awaitSetRefresh ⟨some "", some "r2"⟩⟩
    ⟨some "", some "r2"⟩
    (by decide) (by decide) rfl (Or.inr rfl)
  exact ⟨h.2.1, h.2.2,
    h.1 ⟨2, ⟨some 401, "f2"⟩, false, none, .waiting⟩ (by decide) (by decide)⟩

/-- Witness for C7, at a one-caller rotation from r1 to r2. -/
theorem C7_witness :
    (run (run (initSys (some "a1") (some "r1") true) [.arrive 1 ⟨some 401, "f1"⟩])
      [.readDone 1 false, .postDone 1 (.ok ⟨some "a2", some "r2"⟩), .setDone 1 none]).submittedLog
      = (run (initSys (some "a1") (some "r1") true) [.arrive 1 ⟨some 401, "f1"⟩]).submittedLog ++ ["r1"] ∧
    (run (run (initSys (some "a1") (some "r1") true) [.arrive 1 ⟨some 401, "f1"⟩])
      [.readDone 1 false, .postDone 1 (.ok ⟨some "a2", some "r2"⟩), .setDone 1 none]).store.accessToken
      = some "a2" ∧
    getRefreshToken (run (run (initSys (some "a1") (some "r1") true) [.arrive 1 ⟨some 401, "f1"⟩])
      [.readDone 1 false, .postDone 1 (.ok ⟨some "a2", some "r2"⟩), .setDone 1 none]).store false
      = some "r2" ∧
    getRefreshToken (run (run (run (initSys (some "a1") (some "r1") true) [.arrive 1 ⟨some 401, "f1"⟩])
      [.readDone 1 false, .postDone 1 (.ok ⟨some "a2", some "r2"⟩), .setDone 1 none]) []).store false
      ≠ some "r1" := by
  have h := C7_rotation_on_success
    (run (initSys (some "a1") (some "r1") true) [.arrive 1 ⟨some 401, "f1"⟩])
    1 ⟨1, ⟨some 401, "f1"⟩, false, none, .awaitGetRefresh⟩ "r1" "a2" "r2"
    (by decide) (by decide) rfl (by decide) (by decide) (by decide) (by decide)
  exact ⟨h.1, h.2.1, h.2.2.1, h.2.2.2.2 [] rfl⟩

/-- Witness for C8: the secure-store read throws (treated as absence)
for an unmarked 401, and the renewal machinery is untouched. -/
theorem C8_witness :
    findTask (step (run (initSys (some "a1") (some "r1") true) [.arrive 1 ⟨some 401, "f1"⟩])
        (.readDone 1 true)) 1
      = some ⟨1, ⟨some 401, "f1"⟩, false, none,
          .rejected (.original ⟨some 401, "f1"⟩)⟩ ∧
    (step (run (initSys (some "a1") (some "r1") true) [.arrive 1 ⟨some 401, "f1"⟩])
        (.readDone 1 true)).submittedLog
      = (run (initSys (some "a1") (some "r1") true) [.arrive 1 ⟨some 401, "f1"⟩]).submittedLog ∧
    (step (run (initSys (some "a1") (some "r1") true) [.arrive 1 ⟨some 401, "f1"⟩])
        (.readDone 1 true)).store
      = (run (initSys (some "a1") (some "r1") true) [.arrive 1 ⟨some 401, "f1"⟩]).store := by
  have h := C8_nothing_to_renew_with
    (run (initSys (some "a1") (some "r1") true) [.arrive 1 ⟨some 401, "f1"⟩])
    1 true ⟨1, ⟨some 401, "f1"⟩, false, none, .awaitGetRefresh⟩
    (by decide) rfl (Or.inl rfl)
  exact ⟨h.1, h.2.1, h.2.2.1⟩

/-- Witness for C9: a 500 response and a transport-level failure both
pass through unchanged without touching the renewal machinery, and the
success interceptor is the identity. -/
theorem C9_witness :
    onResponseFulfilled 7 = 7 ∧
    (step (initSys (some "a1") (some "r1") true) (.arrive 1 ⟨some 500, "server"⟩)).tasks
      = (initSys (some "a1") (some "r1") true).tasks
        ++ [⟨1, ⟨some 500, "server"⟩, false, none, .rejected (.original ⟨some 500, "server"⟩)⟩] ∧
    (step (initSys (some "a1") (some "r1") true) (.arrive 2 ⟨none, "network"⟩)).submittedLog
      = (initSys (some "a1") (some "r1") true).submittedLog := by
  refine ⟨C9_pass_through.1 Nat 7, ?_, ?_⟩
  · exact (C9_pass_through.2 (initSys (some "a1") (some "r1") true) 1 ⟨some 500, "server"⟩
      (by decide) (by decide)).1
  · exact (C9_pass_through.2 (initSys (some "a1") (some "r1") true) 2 ⟨none, "network"⟩
      (by decide) (by decide)).2.2.1

/-- Witness for C10: the persist of the rotated credential throws after
a successful POST; the cycle degrades to a failure. -/
theorem C10_witness :
    (run (run (initSys (some "a1") (some "r1") true)
        [.arrive 1 ⟨some 401, "f1"⟩, .arrive 2 ⟨some 401, "f2"⟩,
         .readDone 1 false, .readDone 2 false,
         .postDone 1 (.ok ⟨some "a2", some "r2"⟩)])
      [.setDone 1 (some "StorageUnavailable"), .clearDone 1]).store.accessToken = none ∧
    (run (run (initSys (some "a1") (some "r1") true)
        [.arrive 1 ⟨some 401, "f1"⟩, .arrive 2 ⟨some 401, "f2"⟩,
         .readDone 1 false, .readDone 2 false,
         .postDone 1 (.ok ⟨some "a2", some "r2"⟩)])
      [.setDone 1 (some "StorageUnavailable"), .clearDone 1]).store.refreshToken = none ∧
    (⟨2, ⟨some 401, "f2"⟩, false, none, .rejected (.renewal "StorageUnavailable")⟩ : ReqTask).phase
      = .rejected (.renewal "StorageUnavailable") := by
  have h := C10_storage_failure_degrades_to_failure
    (run (initSys (some "a1") (some "r1") true)
      [.arrive 1 ⟨some 401, "f1"⟩, .arrive 2 ⟨some 401, "f2"⟩,
       .readDone 1 false, .readDone 2 false,
       .postDone 1 (.ok ⟨some "a2", some "r2"⟩)])
    1 ⟨1, ⟨some 401, "f1"⟩, true, none, .awaitSetRefresh ⟨some "a2", some "r2"⟩⟩
    ⟨some "a2", some "r2"⟩ "StorageUnavailable"
    (by decide) (by decide) rfl
  exact ⟨h.2.2.2.1, h.2.2.2.2,
    h.1 ⟨2, ⟨some 401, "f2"⟩, false, none, .rejected (.renewal "StorageUnavailable")⟩
      (by decide) (by decide)⟩

end SurfAuth
